import Mathlib

set_option maxHeartbeats 1600000

set_option allowUnsafeReducibility true in
attribute [semireducible] Rat.add Rat.mul Rat.sub Rat.inv Rat.ofScientific

/-!
Shallow embedding of the coordinate-transform / warping engine of
`elektronn3/data/coord_transforms.py` (plus the spec-modelled regional
read primitive `slice_h5` whose definition is not among the provided
sources).  Machine floating point is idealised as exact rational
arithmetic; numpy arrays of statically known small arity are embedded as
structures of rationals; `np.random.RandomState` is embedded as an
explicit stream of abstract draws together with a position counter, so
that identical states yield identical draw sequences.
-/

namespace E3

/-- Spatial 3-vectors, axis order `(z, y, x)` as used throughout the source. -/
structure V3 (α : Type) where
  z : α
  y : α
  x : α
deriving DecidableEq

/-- Homogeneous 4-vectors `(z, y, x, h)`. -/
structure V4 (α : Type) where
  z : α
  y : α
  x : α
  h : α
deriving DecidableEq

/-- Rational-valued 4x4 matrices, the idealisation of the `float32`
homogeneous transforms of the source. -/
abbrev Mat4 := Fin 4 → Fin 4 → ℚ

/-- Matrix product (`np.dot` on 4x4 operands), written out entrywise. -/
def mmul (A B : Mat4) : Mat4 := fun i j =>
  A i 0 * B 0 j + A i 1 * B 1 j + A i 2 * B 2 j + A i 3 * B 3 j

/-- Matrix-vector product on homogeneous 4-vectors. -/
def mulVec4 (A : Mat4) (v : V4 ℚ) : V4 ℚ :=
  ⟨A 0 0 * v.z + A 0 1 * v.y + A 0 2 * v.x + A 0 3 * v.h,
   A 1 0 * v.z + A 1 1 * v.y + A 1 2 * v.x + A 1 3 * v.h,
   A 2 0 * v.z + A 2 1 * v.y + A 2 2 * v.x + A 2 3 * v.h,
   A 3 0 * v.z + A 3 1 * v.y + A 3 2 * v.x + A 3 3 * v.h⟩

/-- `identity()` of the source: `np.eye(4)` (the `lru_cache` is pure
memoisation and semantically transparent). -/
def identity : Mat4 := fun i j => if i = j then 1 else 0

/-- `chain_matrices(mat_list)`: `reduce(np.dot, mat_list, identity())`. -/
def chain_matrices (l : List Mat4) : Mat4 := l.foldl mmul identity

/-- Determinant of a 3x3 matrix (explicit Sarrus expansion). -/
def det3 (m : Fin 3 → Fin 3 → ℚ) : ℚ :=
  m 0 0 * (m 1 1 * m 2 2 - m 1 2 * m 2 1)
  - m 0 1 * (m 1 0 * m 2 2 - m 1 2 * m 2 0)
  + m 0 2 * (m 1 0 * m 2 1 - m 1 1 * m 2 0)

/-- Index map skipping position `i` of `Fin 4`. -/
def skip4 (i : Fin 4) (k : Fin 3) : Fin 4 :=
  if h : k.val < i.val then ⟨k.val, by omega⟩ else ⟨k.val + 1, by omega⟩

/-- 3x3 minor of a 4x4 matrix obtained by deleting row `i` and column `j`. -/
def minor4 (A : Mat4) (i j : Fin 4) : ℚ :=
  det3 fun a b => A (skip4 i a) (skip4 j b)

/-- Determinant of a 4x4 matrix (Laplace expansion along the first row). -/
def det4 (A : Mat4) : ℚ :=
  A 0 0 * minor4 A 0 0 - A 0 1 * minor4 A 0 1
  + A 0 2 * minor4 A 0 2 - A 0 3 * minor4 A 0 3

/-- Exact 4x4 inverse via the adjugate, the rational idealisation of
`np.linalg.inv` (which the source applies to a `float64` copy for
stability); only ever used after a nonzero-determinant guard. -/
def inv4 (A : Mat4) : Mat4 := fun i j =>
  ((-1 : ℚ) ^ ((i : ℕ) + (j : ℕ)) * minor4 A j i) / det4 A

/-- `np.int32(q)` cast applied to a real value: truncation toward zero. -/
def trunc32 (q : ℚ) : ℤ := if 0 ≤ q then ⌊q⌋ else -⌊-q⌋

/-- `np.round`: round half to even (bankers' rounding). -/
def npRound (q : ℚ) : ℤ :=
  if q - ⌊q⌋ = 1/2 then (if 2 ∣ ⌊q⌋ then ⌊q⌋ else ⌊q⌋ + 1) else ⌊q + 1/2⌋

/-- `map_coordinates_nearest(src, coords, lo, dest)` for one output voxel:
round each offset-corrected coordinate and copy that voxel. -/
def map_coordinates_nearest (src : ℤ → ℤ → ℤ → ℚ) (coords lo : V3 ℚ) : ℚ :=
  src (npRound (coords.z - lo.z)) (npRound (coords.y - lo.y)) (npRound (coords.x - lo.x))

/-- `map_coordinates_linear(src, coords, lo, dest)` for one output voxel:
trilinear interpolation from the 8 surrounding voxels, written exactly as
in the source. -/
def map_coordinates_linear (src : ℤ → ℤ → ℤ → ℚ) (coords lo : V3 ℚ) : ℚ :=
  let u := coords.z - lo.z
  let v := coords.y - lo.y
  let w := coords.x - lo.x
  let u0 := trunc32 u
  let u1 := u0 + 1
  let du := u - (u0 : ℚ)
  let v0 := trunc32 v
  let v1 := v0 + 1
  let dv := v - (v0 : ℚ)
  let w0 := trunc32 w
  let w1 := w0 + 1
  let dw := w - (w0 : ℚ)
  src u0 v0 w0 * (1-du) * (1-dv) * (1-dw) +
  src u1 v0 w0 * du * (1-dv) * (1-dw) +
  src u0 v1 w0 * (1-du) * dv * (1-dw) +
  src u0 v0 w1 * (1-du) * (1-dv) * dw +
  src u1 v0 w1 * du * (1-dv) * dw +
  src u0 v1 w1 * (1-du) * dv * dw +
  src u1 v1 w0 * du * dv * (1-dw) +
  src u1 v1 w1 * du * dv * dw

/-- Error outcomes of the Python code, one constructor per distinct
raise site / exception class reachable in the embedded fragment. -/
inductive PyErr where
  /-- `NotImplementedError` for channel-less 3-d input sources. -/
  | notImplemented
  /-- `ValueError('inp_src wrong dim/shape')`. -/
  | wrongDim
  /-- `np.linalg.LinAlgError` on a singular forward matrix. -/
  | linAlgError
  /-- `WarpingOOBError`; the flag records whether the message was the
  target-source variant (`"Out of bounds for target_src"`). -/
  | oob (forTarget : Bool)
  /-- `TypeError` from operating on `None` (subscripting / `tuple(None)` /
  `np.array(None) / 2`). -/
  | typeError
  /-- `IndexError` from `target_src.shape[0]` on an empty shape tuple. -/
  | indexError
  /-- `IndexError` raised inside the regional read when slicing a source
  whose dimensionality is not 4. -/
  | sliceError
  /-- `ValueError` from the `target_cut.max()` reduction when the target
  source has zero channels (raised after the target read). -/
  | emptyChannels
  /-- `ValueError` from a numpy broadcast shape mismatch in plain array
  arithmetic (`np.subtract` / comparison of incompatible 1-d shapes). -/
  | broadcastError
  /-- `ValueError` from the numba `guvectorize` resampling call when the
  loop dimensions of the clipped coordinate sub-grid cannot broadcast
  against the target output patch (raised after the target read). -/
  | resampleShapeError
  /-- `ValueError("targets must be centered w.r.t. images")`. -/
  | centeringError
  /-- `ValueError` from a numpy reduction over an empty array. -/
  | emptyReduction
  /-- Python `assert` failure. -/
  | assertionError
  /-- `ValueError` from `randint` when `low >= high`. -/
  | valueErrorRandint
deriving DecidableEq

/-- State of a `np.random.RandomState`: an abstract stream of rational
draws and a position counter.  Two states with equal stream and position
are the same state, so re-seeding to the same state reproduces draws. -/
structure RState where
  seq : ℕ → ℚ
  pos : ℕ

/-- Fractional part, used to force abstract draws into `[0, 1)`. -/
def unitFrac (q : ℚ) : ℚ := q - ⌊q⌋

/-- One raw draw, advancing the stream position. -/
def RState.next (s : RState) : ℚ × RState :=
  (s.seq s.pos, ⟨s.seq, s.pos + 1⟩)

/-- `rng.rand()`: one uniform draw in `[0, 1)`. -/
def RState.rand (s : RState) : ℚ × RState :=
  let (q, s1) := s.next
  (unitFrac q, s1)

/-- A single `rng.binomial(1, 0.5)` draw (values 0 or 1). -/
def RState.bit (s : RState) : ℤ × RState :=
  let (q, s1) := s.next
  ((if unitFrac q < 1/2 then 1 else 0), s1)

/-- `rng.randint(0, n)` for a statically positive `n`: a uniform index in
`[0, n)`; any residue is attainable by a suitable stream. -/
def RState.randidx (s : RState) (n : ℕ) : ℕ × RState :=
  let (q, s1) := s.next
  ((⌊q⌋ % (n : ℤ)).toNat, s1)

/-- `rng.randint(lo, hi)` with (possibly float) bounds as used by the
sampler: bounds are truncated to integers and a uniform integer in
`[lo, hi)` is drawn; numpy raises `ValueError` when `low >= high`. -/
def RState.randint (s : RState) (lo hi : ℚ) : Except PyErr (ℤ × RState) :=
  let tlo := trunc32 lo
  let thi := trunc32 hi
  if thi ≤ tlo then .error .valueErrorRandint
  else
    let (q, s1) := s.next
    .ok (tlo + ⌊q⌋.emod (thi - tlo), s1)

/-- Pointwise evaluations of the `float32` library functions `np.cos`,
`np.sin`, `np.arcsin` and the constant `np.pi`, over which the embedding
is parametric (they are external transcendental routines, not code of
this repository). -/
structure TrigOracle where
  cosf : ℚ → ℚ
  sinf : ℚ → ℚ
  arcsinf : ℚ → ℚ
  piq : ℚ

/-- `translate(dz, dy, dx)`. -/
def translate (dz dy dx : ℚ) : Mat4 :=
  ![![1, 0, 0, dz],
    ![0, 1, 0, dy],
    ![0, 0, 1, dx],
    ![0, 0, 0, 1]]

/-- `rotate_z(a)`. -/
def rotate_z (T : TrigOracle) (a : ℚ) : Mat4 :=
  ![![1, 0, 0, 0],
    ![0, T.cosf a, -(T.sinf a), 0],
    ![0, T.sinf a, T.cosf a, 0],
    ![0, 0, 0, 1]]

/-- `rotate_y(a)`. -/
def rotate_y (T : TrigOracle) (a : ℚ) : Mat4 :=
  ![![T.cosf a, -(T.sinf a), 0, 0],
    ![T.sinf a, T.cosf a, 0, 0],
    ![0, 0, 1, 0],
    ![0, 0, 0, 1]]

/-- `rotate_x(a)`. -/
def rotate_x (T : TrigOracle) (a : ℚ) : Mat4 :=
  ![![T.cosf a, 0, T.sinf a, 0],
    ![0, 1, 0, 0],
    ![-(T.sinf a), 0, T.cosf a, 0],
    ![0, 0, 0, 1]]

/-- `scale_inv(mz, my, mx)`. -/
def scale_inv (mz my mx : ℚ) : Mat4 :=
  ![![1/mz, 0, 0, 0],
    ![0, 1/my, 0, 0],
    ![0, 0, 1/mx, 0],
    ![0, 0, 0, 1]]

/-- `scale(mz, my, mx)` (the `lru_cache` is pure memoisation). -/
def scale (mz my mx : ℚ) : Mat4 :=
  ![![mz, 0, 0, 0],
    ![0, my, 0, 0],
    ![0, 0, mx, 0],
    ![0, 0, 0, 1]]

/-- `get_random_rotmat(lock_z, amount, rng)`: draws `gamma` (and, unless
`lock_z`, also `phi` and `theta`) from the passed generator and composes
`chain_matrices([R3, R2, R1])`. -/
def get_random_rotmat (T : TrigOracle) (lock_z : Bool) (amount : ℚ)
    (s : RState) : Mat4 × RState :=
  let (g, s1) := s.rand
  let gamma := g * 2 * T.piq * amount
  if lock_z then (rotate_z T gamma, s1)
  else
    let (p, s2) := s1.rand
    let phi := p * 2 * T.piq * amount
    let (t, s3) := s2.rand
    let theta := T.arcsinf t * amount
    let R1 := rotate_z T (-phi)
    let R2 := rotate_y T (-theta)
    let R3 := rotate_z T gamma
    (chain_matrices [R3, R2, R1], s3)

/-- Diagonal 4x4 matrix (the result of `np.fill_diagonal` on `np.eye(4)`). -/
def diag4 (a b c d : ℚ) : Mat4 :=
  ![![a, 0, 0, 0],
    ![0, b, 0, 0],
    ![0, 0, c, 0],
    ![0, 0, 0, d]]

/-- `get_random_flipmat(no_x_flip, rng)`: four `binomial(1, 0.5)` draws;
the homogeneous entry is forced to 1 after drawing, and the third spatial
axis is forced to 1 when `no_x_flip` is set. -/
def get_random_flipmat (no_x_flip : Bool) (s : RState) : Mat4 × RState :=
  let (b0, s1) := s.bit
  let (b1, s2) := s1.bit
  let (b2, s3) := s2.bit
  let (_, s4) := s3.bit
  let f0 := 2 * (b0 : ℚ) - 1
  let f1 := 2 * (b1 : ℚ) - 1
  let f2 := if no_x_flip then 1 else 2 * (b2 : ℚ) - 1
  (diag4 f0 f1 f2 1, s4)

/-- Row permutation of `Fin 4` as a matrix: `np.eye(4)[perm]`, i.e. row
`i` of the result is the `perm i`-th standard basis row. -/
def permMat (perm : Fin 4 → Fin 4) : Mat4 :=
  fun i j => if perm i = j then 1 else 0

/-- The `swaps` row-index lists of `get_random_swapmat`. -/
def swapLists (lock_z : Bool) : List (Fin 4 → Fin 4) :=
  if lock_z then
    [![0, 1, 2, 3], ![0, 2, 1, 3]]
  else
    [![0, 1, 2, 3], ![0, 2, 1, 3], ![1, 0, 2, 3],
     ![1, 2, 0, 3], ![2, 0, 1, 3], ![2, 1, 0, 3]]

/-- `get_random_swapmat(lock_z, rng)`: one `randint(0, len(swaps))` draw
selecting a row permutation of the identity. -/
def get_random_swapmat (lock_z : Bool) (s : RState) : Mat4 × RState :=
  let l := swapLists lock_z
  let (i, s1) := s.randidx l.length
  (permMat (l.getD i id), s1)

/-- `np.clip(v, lo, hi)` for scalars. -/
def clipQ (lo hi v : ℚ) : ℚ := max lo (min v hi)

/-- The perturbation matrix of `get_random_warpmat`, drawn elementwise in
C (row-major) order from the **ambient global** `np.random` stream `g`
(the function ignores its `rng` parameter and calls `np.random.uniform`),
then masked exactly as in the source: homogeneous diagonal entry zeroed,
first row/column zeroed under `lock_z`, bottom row zeroed unless
`perspective`, and bottom-row spatial entries scaled by `0.05` and
clipped to `[-3e-3, 3e-3]`. -/
def warpPerturb (lock_z perspective : Bool) (amt : ℚ) (g : RState) : Mat4 :=
  fun i j =>
    let raw := -amt + 2 * amt * unitFrac (g.seq (g.pos + 4 * i.val + j.val))
    let v1 := if i.val = 3 ∧ j.val = 3 then 0 else raw
    let v2 := if lock_z = true ∧ (i.val = 0 ∨ j.val = 0) then 0 else v1
    let v3 := if perspective = false ∧ i.val = 3 then 0 else v2
    if i.val = 3 ∧ j.val ≤ 2 then clipQ (-(3/1000)) (3/1000) (v3 * (1/20)) else v3

/-- `get_random_warpmat(lock_z, perspective, amount, rng)`: returns
`np.eye(4) + perturb` where `perturb` is uniform in
`(-0.1*amount, 0.1*amount)` drawn from the **global** stream `g` (16
draws), and advances that global stream. -/
def get_random_warpmat (lock_z perspective : Bool) (amount : ℚ)
    (g : RState) : Mat4 × RState :=
  let amt := amount * (1/10)
  let pert := warpPerturb lock_z perspective amt g
  ((fun i j => (if i = j then (1 : ℚ) else 0) + pert i j), ⟨g.seq, g.pos + 16⟩)

/-- A volumetric source (`h5py.Dataset`-like): its shape tuple of
arbitrary length, and its contents.  The content function is read with 4
indices `(channel, z, y, x)`; it is only meaningful when the shape has
length 4, which is exactly when the engine can slice the source. -/
structure Src where
  shape : List ℕ
  data : ℕ → ℤ → ℤ → ℤ → ℚ

/-- Modelled from the spec: `slice_h5` is imported from
`elektronn3.data.utils`, but that function's definition is not among the
provided sources.  Per §6 of the spec, the volumetric source exposes
`readRegion(loInclusive, hiExclusive)` returning a dense copy of the
requested axis-aligned sub-region of a `(C, D, H, W)` source, converted
to the working precision; a source that is not 4-dimensional cannot be
sliced this way and the read fails (the real implementation indexes
`src[:, lo0:hi0, lo1:hi1, lo2:hi2]`, which raises on non-4-d data).
Outside the copied region the returned dense array is modelled as 0. -/
def slice_h5 (s : Src) (lo hiEx : V3 ℤ) :
    Except PyErr (ℕ → ℤ → ℤ → ℤ → ℚ) :=
  match s.shape with
  | [c, _, _, _] =>
    .ok fun k u v w =>
      if k < c ∧ 0 ≤ u ∧ u < hiEx.z - lo.z ∧ 0 ≤ v ∧ v < hiEx.y - lo.y
          ∧ 0 ≤ w ∧ w < hiEx.x - lo.x then
        s.data k (lo.z + u) (lo.y + v) (lo.x + w)
      else 0
  | _ => .error .sliceError

/-- One corner of `make_dest_corners(sh)`: `(sh - 1) * b` per axis in
homogeneous coordinates (`np.subtract(sh, 1)` is computed over ℤ, so a
zero-sized axis yields corner coordinate `-1` exactly as in numpy). -/
def destCorner (p : V3 ℕ) (bz bY bx : Bool) : V4 ℚ :=
  ⟨if bz then ((p.z : ℤ) - 1 : ℤ) else 0,
   if bY then ((p.y : ℤ) - 1 : ℤ) else 0,
   if bx then ((p.x : ℤ) - 1 : ℤ) else 0,
   1⟩

/-- Map one homogeneous coordinate through the inverse matrix, applying
the homogeneous divide when the forward matrix carries perspective
coefficients, and keep the spatial part — the common operation applied
both to the 8 corners and to the dense destination grid. -/
def mapCoord (N : Mat4) (persp : Bool) (c : V4 ℚ) : V3 ℚ :=
  let m := mulVec4 N c
  if persp then ⟨m.z / m.h, m.y / m.h, m.x / m.h⟩ else ⟨m.z, m.y, m.x⟩

/-- Minimum of a function over the 8 corner flag combinations. -/
def min8 {α : Type} [LinearOrder α] (f : Bool → Bool → Bool → α) : α :=
  min (min (min (f false false false) (f false false true))
           (min (f false true false) (f false true true)))
      (min (min (f true false false) (f true false true))
           (min (f true true false) (f true true true)))

/-- Maximum of a function over the 8 corner flag combinations. -/
def max8 {α : Type} [LinearOrder α] (f : Bool → Bool → Bool → α) : α :=
  max (max (max (f false false false) (f false false true))
           (max (f false true false) (f false true true)))
      (max (max (f true false false) (f true false true))
           (max (f true true false) (f true true true)))

/-- `lo = np.min(np.floor(src_corners), 0)` of `warp_slice`. -/
def cornerLo (N : Mat4) (persp : Bool) (p : V3 ℕ) : V3 ℤ :=
  ⟨min8 fun a b c => ⌊(mapCoord N persp (destCorner p a b c)).z⌋,
   min8 fun a b c => ⌊(mapCoord N persp (destCorner p a b c)).y⌋,
   min8 fun a b c => ⌊(mapCoord N persp (destCorner p a b c)).x⌋⟩

/-- `hi = np.max(np.ceil(src_corners + 1), 0)` of `warp_slice` (the `+1`
is the extra neighbour needed by trilinear interpolation). -/
def cornerHi (N : Mat4) (persp : Bool) (p : V3 ℕ) : V3 ℤ :=
  ⟨max8 fun a b c => ⌈(mapCoord N persp (destCorner p a b c)).z + 1⌉,
   max8 fun a b c => ⌈(mapCoord N persp (destCorner p a b c)).y + 1⌉,
   max8 fun a b c => ⌈(mapCoord N persp (destCorner p a b c)).x + 1⌉⟩

/-- One entry of the dense mapped coordinate grid: destination voxel
`(z, y, x)` (from `make_dest_coords`) pushed through the inverse matrix
with conditional homogeneous divide, spatial part only. -/
def srcCoord (N : Mat4) (persp : Bool) (z y x : ℕ) : V3 ℚ :=
  mapCoord N persp ⟨(z : ℚ), (y : ℚ), (x : ℚ), 1⟩

/-- Fold of a binary operation over a dense 3-d grid of rationals,
seeded with the value at the origin (used for numpy `min`/`max`
reductions over nonempty coordinate grids). -/
def gridFold3 (op : ℚ → ℚ → ℚ) (f : ℕ → ℕ → ℕ → ℚ) (n0 n1 n2 : ℕ) : ℚ :=
  (List.range n0).foldl
    (fun acc a => (List.range n1).foldl
      (fun acc2 b => (List.range n2).foldl
        (fun acc3 c => op acc3 (f a b c)) acc2) acc)
    (f 0 0 0)

/-- Fold of a binary operation over a dense 4-d grid of rationals. -/
def gridFold4 (op : ℚ → ℚ → ℚ) (f : ℕ → ℕ → ℕ → ℕ → ℚ)
    (n0 n1 n2 n3 : ℕ) : ℚ :=
  (List.range n0).foldl
    (fun acc k => (List.range n1).foldl
      (fun acc1 a => (List.range n2).foldl
        (fun acc2 b => (List.range n3).foldl
          (fun acc3 c => op acc3 (f k a b c)) acc2) acc1) acc)
    (f 0 0 0 0)

/-- Bounded existence test over a dense 4-d grid. -/
def gridAny4 (pr : ℕ → ℕ → ℕ → ℕ → Bool) (n0 n1 n2 n3 : ℕ) : Bool :=
  (List.range n0).any fun k => (List.range n1).any fun a =>
    (List.range n2).any fun b => (List.range n3).any fun c => pr k a b c

/-- `np.subtract` of a length-3 integer vector and a 1-d array (the
spatial shape `target_src.shape[1:]`), with numpy's 1-d broadcasting:
lengths must match or the second operand must have length 1. -/
def bsub3 (a : V3 ℤ) (b : List ℕ) : Except PyErr (V3 ℤ) :=
  match b with
  | [t0, t1, t2] => .ok ⟨a.z - t0, a.y - t1, a.x - t2⟩
  | [t] => .ok ⟨a.z - t, a.y - t, a.x - t⟩
  | _ => .error .broadcastError

/-- `np.any(v >= shape)` of a length-3 integer vector against a 1-d shape
array, with the same broadcasting rule. -/
def anyGE3 (a : V3 ℤ) (b : List ℕ) : Except PyErr Bool :=
  match b with
  | [t0, t1, t2] => .ok (decide ((t0 : ℤ) ≤ a.z ∨ (t1 : ℤ) ≤ a.y ∨ (t2 : ℤ) ≤ a.x))
  | [t] => .ok (decide ((t : ℤ) ≤ a.z ∨ (t : ℤ) ≤ a.y ∨ (t : ℤ) ≤ a.x))
  | _ => .error .broadcastError

/-- A single region-read request issued to a volumetric source.  `hiEx`
is the exclusive upper bound actually passed to the read (`hi + 1` in
`warp_slice`). -/
structure ReadReq where
  /-- `false`: read of `inp_src`; `true`: read of `target_src`. -/
  target : Bool
  lo : V3 ℤ
  hiEx : V3 ℤ
deriving DecidableEq

/-- A dense output patch, addressed `(channel, z, y, x)`; entries outside
the allocated `np.zeros` extent are 0. -/
abbrev Patch := ℕ → ℕ → ℕ → ℕ → ℚ

/-- Result of `warp_slice`: the list of region reads issued to the
volumetric sources, in order, and either the returned `(inp, target)`
pair or the exception raised. -/
structure WRes where
  reads : List ReadReq
  out : Except PyErr (Patch × Option Patch)

/-- Python basic slice `a[start : stop]` (step 1) on an axis of length
`n`: a negative bound indexes from the end and both bounds are clamped
into the axis, exactly the semantics of the sub-grid slice at source
lines 322-326, where `off_ps` may be negative.  Returns the effective
start and the length of the selection. -/
def pySlice (n : ℕ) (start stop : ℤ) : ℕ × ℕ :=
  let s : ℤ := if start < 0 then max 0 ((n : ℤ) + start) else min start (n : ℤ)
  let e : ℤ := if stop < 0 then max 0 ((n : ℤ) + stop) else min stop (n : ℤ)
  (s.toNat, (e - s).toNat)

/-- Data computed by the pre-read portion of the target block of
`warp_slice` (source lines 309-332): target patch shape, target channel
count, the halved centering offsets, the effective start and length of
the (clamped) coordinate sub-grid slice per axis, and the target-aligned
bounding box of that sub-grid. -/
structure TargPre where
  tp : V3 ℕ
  n_f_t : ℕ
  off : V3 ℤ
  st : V3 ℕ
  len : V3 ℕ
  lo_targ : V3 ℤ
  hi_targ : V3 ℤ
deriving DecidableEq

/-- The target bounds check of `warp_slice` (source lines 328-332): the
broadcast comparison `np.any(hi_targ >= target_src.shape[1:])` together
with `np.any(lo_targ < 0)`, gating the value computed so far. -/
def boundsGate (lo hi : V3 ℤ) (shape1 : List ℕ) (pre0 : TargPre) :
    Except PyErr TargPre :=
  match anyGE3 hi shape1 with
  | .error e => .error e
  | .ok ge =>
    if lo.z < 0 ∨ lo.y < 0 ∨ lo.x < 0 ∨ ge = true then .error (.oob true)
    else .ok pre0

/-- The pre-read checks and geometry of the `if target_src is not None:`
block of `warp_slice` (source lines 308-332), up to and including the
target bounds check — everything the source does before the target-source
read.  `sh` is the spatial input-source shape, `p` the input patch shape
and `coords` the dense mapped coordinate grid.  The sub-grid selection at
lines 322-326 is a Python slice, so a negative `off_ps` indexes from the
end and the selection is clamped into the grid (`pySlice`); a `.min()`
reduction over a zero-length selected axis raises `ValueError`. -/
def wsTargetPre (sh : V3 ℕ) (p : V3 ℕ) (coords : ℕ → ℕ → ℕ → V3 ℚ)
    (ts : Src) (tpo : Option (V3 ℕ)) : Except PyErr TargPre :=
  match tpo with
  | none => .error .typeError
  | some tp =>
    match ts.shape.head? with
    | none => .error .indexError
    | some n_f_t =>
      match bsub3 ⟨(sh.z : ℤ), (sh.y : ℤ), (sh.x : ℤ)⟩ (ts.shape.drop 1) with
      | .error e => .error e
      | .ok off0 =>
        if ¬(off0.z % 2 = 0 ∧ off0.y % 2 = 0 ∧ off0.x % 2 = 0) then
          .error .centeringError
        else
          let off : V3 ℤ := ⟨off0.z.fdiv 2, off0.y.fdiv 2, off0.x.fdiv 2⟩
          let ops0 : V3 ℤ := ⟨(p.z : ℤ) - tp.z, (p.y : ℤ) - tp.y, (p.x : ℤ) - tp.x⟩
          if ¬(ops0.z % 2 = 0 ∧ ops0.y % 2 = 0 ∧ ops0.x % 2 = 0) then
            .error .centeringError
          else
            let sz := pySlice p.z (ops0.z.fdiv 2) (ops0.z.fdiv 2 + tp.z)
            let sy := pySlice p.y (ops0.y.fdiv 2) (ops0.y.fdiv 2 + tp.y)
            let sx := pySlice p.x (ops0.x.fdiv 2) (ops0.x.fdiv 2 + tp.x)
            let st : V3 ℕ := ⟨sz.1, sy.1, sx.1⟩
            let len : V3 ℕ := ⟨sz.2, sy.2, sx.2⟩
            if len.z = 0 ∨ len.y = 0 ∨ len.x = 0 then
              .error .emptyReduction
            else
              let sub : ℕ → ℕ → ℕ → V3 ℚ := fun a b c =>
                coords (st.z + a) (st.y + b) (st.x + c)
              let lo_targ : V3 ℤ :=
                ⟨⌊gridFold3 min (fun a b c => (sub a b c).z) len.z len.y len.x - off.z⌋,
                 ⌊gridFold3 min (fun a b c => (sub a b c).y) len.z len.y len.x - off.y⌋,
                 ⌊gridFold3 min (fun a b c => (sub a b c).x) len.z len.y len.x - off.x⌋⟩
              let hi_targ : V3 ℤ :=
                ⟨⌈gridFold3 max (fun a b c => (sub a b c).z) len.z len.y len.x - off.z + 1⌉,
                 ⌈gridFold3 max (fun a b c => (sub a b c).y) len.z len.y len.x - off.y + 1⌉,
                 ⌈gridFold3 max (fun a b c => (sub a b c).x) len.z len.y len.x - off.x + 1⌉⟩
              boundsGate lo_targ hi_targ (ts.shape.drop 1)
                ⟨tp, n_f_t, off, st, len, lo_targ, hi_targ⟩

/-- The `if target_src is not None:` block of `warp_slice` (source lines
308-356): the pre-read checks of `wsTargetPre`, then the target-source
read, the `target_cut.max()` reduction, and the per-channel
nearest/linear resampling with the clip of interpolated discrete labels
to the observed maximum.  The `guvectorize` resampling call broadcasts
the clipped sub-grid's loop dimensions against the `target_patch_shape`
output: a length-1 selected axis repeats its single coordinate, and any
other length mismatch raises — after the target read.  Returns the target
read request (when one was issued) together with the produced target
patch or the exception raised. -/
def wsTargetStage (sh : V3 ℕ) (p : V3 ℕ) (coords : ℕ → ℕ → ℕ → V3 ℚ)
    (ts : Src) (tpo : Option (V3 ℕ)) (tdo : Option (List ℕ)) :
    Option ReadReq × Except PyErr Patch :=
  match wsTargetPre sh p coords ts tpo with
  | .error e => (none, .error e)
  | .ok pre =>
    let tp := pre.tp
    let sub : ℕ → ℕ → ℕ → V3 ℚ := fun a b c =>
      coords (pre.st.z + if pre.len.z = 1 then 0 else a)
             (pre.st.y + if pre.len.y = 1 then 0 else b)
             (pre.st.x + if pre.len.x = 1 then 0 else c)
    let hiEx : V3 ℤ := ⟨pre.hi_targ.z + 1, pre.hi_targ.y + 1, pre.hi_targ.x + 1⟩
    let req : ReadReq := ⟨true, pre.lo_targ, hiEx⟩
    match slice_h5 ts pre.lo_targ hiEx with
    | .error e => (some req, .error e)
    | .ok cut =>
      if pre.n_f_t = 0 then (some req, .error .emptyChannels)
      else if ¬((pre.len.z = tp.z ∨ pre.len.z = 1) ∧ (pre.len.y = tp.y ∨ pre.len.y = 1)
          ∧ (pre.len.x = tp.x ∨ pre.len.x = 1)) then
        (some req, .error .resampleShapeError)
      else
        let n_target_classes :=
          gridFold4 max (fun k a b c => cut k (a : ℤ) (b : ℤ) (c : ℤ))
            pre.n_f_t (hiEx.z - pre.lo_targ.z).toNat
            (hiEx.y - pre.lo_targ.y).toNat (hiEx.x - pre.lo_targ.x).toNat
        let loQ : V3 ℚ := ⟨((pre.lo_targ.z + pre.off.z : ℤ) : ℚ),
                           ((pre.lo_targ.y + pre.off.y : ℤ) : ℚ),
                           ((pre.lo_targ.x + pre.off.x : ℤ) : ℚ)⟩
        let discr : ℕ → Bool := fun k =>
          match tdo with
          | none => true
          | some l => decide (k ∈ l)
        let raw : Patch := fun k a b c =>
          if k < pre.n_f_t ∧ a < tp.z ∧ b < tp.y ∧ c < tp.x then
            if discr k then map_coordinates_nearest (cut k) (sub a b c) loQ
            else map_coordinates_linear (cut k) (sub a b c) loQ
          else 0
        let exceed := gridAny4
          (fun k a b c => decide (n_target_classes < raw k a b c))
          pre.n_f_t tp.z tp.y tp.x
        let tgt : Patch := fun k a b c =>
          if exceed then clipQ 0 n_target_classes (raw k a b c)
          else raw k a b c
        (some req, .ok fun k a b c =>
          if k < pre.n_f_t ∧ a < tp.z ∧ b < tp.y ∧ c < tp.x then tgt k a b c
          else 0)

/-- `warp_slice(inp_src, patch_shape, M, target_src, target_patch_shape,
target_discrete_ix)`: the full extraction pipeline, recording every
region read issued to a volumetric source. -/
def warp_slice (inp_src : Src) (patch_shape : V3 ℕ) (M : Mat4)
    (target_src : Option Src := none)
    (target_patch_shape : Option (V3 ℕ) := none)
    (target_discrete_ix : Option (List ℕ) := none) : WRes :=
  match inp_src.shape with
  | [_, _, _] => ⟨[], .error .notImplemented⟩
  | [n_f, d, h, w] =>
    if det4 M = 0 then ⟨[], .error .linAlgError⟩
    else
      let N := inv4 M
      let persp := decide (M 3 0 ≠ 0 ∨ M 3 1 ≠ 0 ∨ M 3 2 ≠ 0)
      let lo := cornerLo N persp patch_shape
      let hi := cornerHi N persp patch_shape
      if lo.z < 0 ∨ lo.y < 0 ∨ lo.x < 0
          ∨ (d : ℤ) ≤ hi.z ∨ (h : ℤ) ≤ hi.y ∨ (w : ℤ) ≤ hi.x then
        ⟨[], .error (.oob false)⟩
      else
        let hiEx : V3 ℤ := ⟨hi.z + 1, hi.y + 1, hi.x + 1⟩
        let req : ReadReq := ⟨false, lo, hiEx⟩
        match slice_h5 inp_src lo hiEx with
        | .error e => ⟨[req], .error e⟩
        | .ok cut =>
          let coords := srcCoord N persp
          let loQ : V3 ℚ := ⟨(lo.z : ℚ), (lo.y : ℚ), (lo.x : ℚ)⟩
          let inp : Patch := fun k z y x =>
            if k < n_f ∧ z < patch_shape.z ∧ y < patch_shape.y ∧ x < patch_shape.x then
              map_coordinates_linear (cut k) (coords z y x) loQ
            else 0
          match target_src with
          | none => ⟨[req], .ok (inp, none)⟩
          | some ts =>
            match wsTargetStage ⟨d, h, w⟩ patch_shape coords ts
                target_patch_shape target_discrete_ix with
            | (none, .error e) => ⟨[req], .error e⟩
            | (some tr, .error e) => ⟨[req, tr], .error e⟩
            | (some tr, .ok tgt) => ⟨[req, tr], .ok (inp, some tgt)⟩
            | (none, .ok tgt) => ⟨[req], .ok (inp, some tgt)⟩
  | _ => ⟨[], .error .wrongDim⟩

/-- `shape[-3:]` as a spatial triple under numpy 1-d broadcasting in the
downstream arithmetic (lines 436-441): a length-1 tail broadcasts to all
three axes, while a tail of length 0 or 2 fails to broadcast against the
length-3 center vectors. -/
def last3 (l : List ℕ) : Option (V3 ℕ) :=
  match l.reverse with
  | c :: b :: a :: _ => some ⟨a, b, c⟩
  | [c] => some ⟨c, c, c⟩
  | _ => none

/-- `offset = (spatial_inp_src_shape - spatial_target_src_shape) // 2`
(source line 436): integer floor division, with no parity check. -/
def centeringOffset (a b : V3 ℕ) : V3 ℤ :=
  ⟨((a.z : ℤ) - (b.z : ℤ)).fdiv 2,
   ((a.y : ℤ) - (b.y : ℤ)).fdiv 2,
   ((a.x : ℤ) - (b.x : ℤ)).fdiv 2⟩

/-- `np.isclose(warp_amount, 0)`: `|warp_amount| <= atol = 1e-8`. -/
def isclose0 (q : ℚ) : Prop := |q| ≤ 1/100000000

instance (q : ℚ) : Decidable (isclose0 q) := by
  unfold isclose0
  infer_instance

/-- `get_warped_coord_transform(inp_src_shape, patch_shape, aniso_factor,
sample_aniso, warp_amount, lock_z, no_x_flip, perspective,
target_src_shape, target_patch_shape, rng)`.  `g` is the ambient global
`np.random` state, which `get_random_warpmat` draws from.  Subscripting
`None` (`target_src_shape[-3:]`) raises `TypeError`; after the
`np.array(...)` conversion `target_patch_shape is not None` is always
true (`np.array(None)` is an ndarray), so the untargeted branch of the
source (lines 442-444) is dead code and a `None` target patch shape
raises `TypeError` at `target_patch_shape / 2`. -/
def get_warped_coord_transform (T : TrigOracle) (inp_src_shape : List ℕ)
    (patch_shape : V3 ℕ) (aniso_factor : ℚ) (sample_aniso : Bool)
    (warp_amount : ℚ) (lock_z no_x_flip perspective : Bool)
    (target_src_shape : Option (List ℕ)) (target_patch_shape : Option (V3 ℕ))
    (rng g : RState) : Except PyErr Mat4 :=
  match target_src_shape with
  | none => .error .typeError
  | some tss =>
    match last3 inp_src_shape, last3 tss with
    | some sp, some tsp =>
      let dest_center : V3 ℚ :=
        ⟨(patch_shape.z : ℚ)/2, (patch_shape.y : ℚ)/2, (patch_shape.x : ℚ)/2⟩
      let src_remainder : V3 ℚ :=
        ⟨((patch_shape.z % 2 : ℕ) : ℚ)/2, ((patch_shape.y % 2 : ℕ) : ℚ)/2,
         ((patch_shape.x % 2 : ℕ) : ℚ)/2⟩
      match target_patch_shape with
      | none => .error .typeError
      | some tp =>
        let target_center : V3 ℚ := ⟨(tp.z : ℚ)/2, (tp.y : ℚ)/2, (tp.x : ℚ)/2⟩
        let offset := centeringOffset sp tsp
        let lo_pos : V3 ℚ :=
          ⟨max dest_center.z (target_center.z + offset.z),
           max dest_center.y (target_center.y + offset.y),
           max dest_center.x (target_center.x + offset.x)⟩
        let hi_pos : V3 ℚ :=
          ⟨min ((sp.z : ℚ) - dest_center.z) ((tsp.z : ℚ) - target_center.z + offset.z),
           min ((sp.y : ℚ) - dest_center.y) ((tsp.y : ℚ) - target_center.y + offset.y),
           min ((sp.x : ℚ) - dest_center.x) ((tsp.x : ℚ) - target_center.x + offset.x)⟩
        if ¬(lo_pos.z < hi_pos.z ∧ lo_pos.y < hi_pos.y ∧ lo_pos.x < hi_pos.x) then
          .error .assertionError
        else do
          let (zi, s1) ← rng.randint lo_pos.z hi_pos.z
          let (yi, s2) ← s1.randint lo_pos.y hi_pos.y
          let (xi, s3) ← s2.randint lo_pos.x hi_pos.x
          let z := (zi : ℚ) + src_remainder.z
          let y := (yi : ℚ) + src_remainder.y
          let x := (xi : ℚ) + src_remainder.x
          let (F, s4) := get_random_flipmat no_x_flip s3
          let (S, s5) :=
            if no_x_flip then (identity, s4) else get_random_swapmat lock_z s4
          let (R, W) :=
            if isclose0 warp_amount then (identity, identity)
            else
              let (R, _) := get_random_rotmat T lock_z warp_amount s5
              let (W, _) := get_random_warpmat lock_z perspective warp_amount g
              (R, W)
          let T_src := translate (-z) (-y) (-x)
          let S_src := scale aniso_factor 1 1
          let S_dest := if sample_aniso then scale (1/aniso_factor) 1 1 else identity
          let T_dest := translate dest_center.z dest_center.y dest_center.x
          .ok (chain_matrices [T_dest, S_dest, R, W, F, S, S_src, T_src])
    | _, _ => .error .broadcastError

/-- The transform builder as the spec's words for claim C9 describe it:
identical to `get_warped_coord_transform` except that the axis-swap
factor is obtained from `get_random_swapmat` *for every option setting*
(the spec substitutes identity only for the rotation and warp factors).
This definition follows the claim, not the source, and is compared with
the source's behaviour. -/
def get_warped_coord_transform_claim (T : TrigOracle) (inp_src_shape : List ℕ)
    (patch_shape : V3 ℕ) (aniso_factor : ℚ) (sample_aniso : Bool)
    (warp_amount : ℚ) (lock_z no_x_flip perspective : Bool)
    (target_src_shape : Option (List ℕ)) (target_patch_shape : Option (V3 ℕ))
    (rng g : RState) : Except PyErr Mat4 :=
  match target_src_shape with
  | none => .error .typeError
  | some tss =>
    match last3 inp_src_shape, last3 tss with
    | some sp, some tsp =>
      let dest_center : V3 ℚ :=
        ⟨(patch_shape.z : ℚ)/2, (patch_shape.y : ℚ)/2, (patch_shape.x : ℚ)/2⟩
      let src_remainder : V3 ℚ :=
        ⟨((patch_shape.z % 2 : ℕ) : ℚ)/2, ((patch_shape.y % 2 : ℕ) : ℚ)/2,
         ((patch_shape.x % 2 : ℕ) : ℚ)/2⟩
      match target_patch_shape with
      | none => .error .typeError
      | some tp =>
        let target_center : V3 ℚ := ⟨(tp.z : ℚ)/2, (tp.y : ℚ)/2, (tp.x : ℚ)/2⟩
        let offset := centeringOffset sp tsp
        let lo_pos : V3 ℚ :=
          ⟨max dest_center.z (target_center.z + offset.z),
           max dest_center.y (target_center.y + offset.y),
           max dest_center.x (target_center.x + offset.x)⟩
        let hi_pos : V3 ℚ :=
          ⟨min ((sp.z : ℚ) - dest_center.z) ((tsp.z : ℚ) - target_center.z + offset.z),
           min ((sp.y : ℚ) - dest_center.y) ((tsp.y : ℚ) - target_center.y + offset.y),
           min ((sp.x : ℚ) - dest_center.x) ((tsp.x : ℚ) - target_center.x + offset.x)⟩
        if ¬(lo_pos.z < hi_pos.z ∧ lo_pos.y < hi_pos.y ∧ lo_pos.x < hi_pos.x) then
          .error .assertionError
        else do
          let (zi, s1) ← rng.randint lo_pos.z hi_pos.z
          let (yi, s2) ← s1.randint lo_pos.y hi_pos.y
          let (xi, s3) ← s2.randint lo_pos.x hi_pos.x
          let z := (zi : ℚ) + src_remainder.z
          let y := (yi : ℚ) + src_remainder.y
          let x := (xi : ℚ) + src_remainder.x
          let (F, s4) := get_random_flipmat no_x_flip s3
          let (S, s5) := get_random_swapmat lock_z s4
          let (R, W) :=
            if isclose0 warp_amount then (identity, identity)
            else
              let (R, _) := get_random_rotmat T lock_z warp_amount s5
              let (W, _) := get_random_warpmat lock_z perspective warp_amount g
              (R, W)
          let T_src := translate (-z) (-y) (-x)
          let S_src := scale aniso_factor 1 1
          let S_dest := if sample_aniso then scale (1/aniso_factor) 1 1 else identity
          let T_dest := translate dest_center.z dest_center.y dest_center.x
          .ok (chain_matrices [T_dest, S_dest, R, W, F, S, S_src, T_src])
    | _, _ => .error .broadcastError

/-- The exception raised by a `warp_slice` call, if any. -/
def outErr (r : WRes) : Option PyErr :=
  match r.out with
  | .error e => some e
  | .ok _ => none

/-- Whether a `warp_slice` call returned successfully. -/
def outOk (r : WRes) : Bool :=
  match r.out with
  | .error _ => false
  | .ok _ => true

/-- The exception raised by a transform-builder call, if any. -/
def exErr (r : Except PyErr Mat4) : Option PyErr :=
  match r with
  | .error e => some e
  | .ok _ => none

/-- Whether a transform-builder call returned a matrix. -/
def exIsOk (r : Except PyErr Mat4) : Bool :=
  match r with
  | .error _ => false
  | .ok _ => true

/-- One matrix entry of a successful transform-builder result (0 on
error); used to compare two results at a single entry. -/
def exEntry (r : Except PyErr Mat4) (i j : Fin 4) : ℚ :=
  match r with
  | .ok A => A i j
  | .error _ => 0

/-- A concrete float-trig oracle used for closed instantiations. -/
def T0 : TrigOracle := ⟨fun _ => 1, fun _ => 0, fun _ => 0, 355/113⟩

/-- A generator state whose stream is constantly `q`. -/
def cst (q : ℚ) : RState := ⟨fun _ => q, 0⟩

/-- A generator state picking the third axis-swap permutation at draw
position 7 (after 3 center draws and 4 flip draws). -/
def seq9 : RState := ⟨fun n => if n = 7 then 2 else 0, 0⟩

/-- The spec's reference formula for trilinear reconstruction (§4.5):
per axis take integer floor and fractional remainder of the
offset-corrected coordinate, then sum the 8 surrounding voxels weighted
by products of `frac` (high side) / `1 - frac` (low side). -/
def trilinearRef (src : ℤ → ℤ → ℤ → ℚ) (coords lo : V3 ℚ) : ℚ :=
  let u := coords.z - lo.z
  let v := coords.y - lo.y
  let w := coords.x - lo.x
  let fu := u - (⌊u⌋ : ℚ)
  let fv := v - (⌊v⌋ : ℚ)
  let fw := w - (⌊w⌋ : ℚ)
  src ⌊u⌋ ⌊v⌋ ⌊w⌋ * ((1-fu) * (1-fv) * (1-fw)) +
  src ⌊u⌋ ⌊v⌋ (⌊w⌋+1) * ((1-fu) * (1-fv) * fw) +
  src ⌊u⌋ (⌊v⌋+1) ⌊w⌋ * ((1-fu) * fv * (1-fw)) +
  src ⌊u⌋ (⌊v⌋+1) (⌊w⌋+1) * ((1-fu) * fv * fw) +
  src (⌊u⌋+1) ⌊v⌋ ⌊w⌋ * (fu * (1-fv) * (1-fw)) +
  src (⌊u⌋+1) ⌊v⌋ (⌊w⌋+1) * (fu * (1-fv) * fw) +
  src (⌊u⌋+1) (⌊v⌋+1) ⌊w⌋ * (fu * fv * (1-fw)) +
  src (⌊u⌋+1) (⌊v⌋+1) (⌊w⌋+1) * (fu * fv * fw)

/-- The spatial shape components of a 4-d source (positions 1..3 of the
shape tuple). -/
def spat (s : Src) : V3 ℤ :=
  ⟨(s.shape.getD 1 0 : ℤ), (s.shape.getD 2 0 : ℤ), (s.shape.getD 3 0 : ℤ)⟩

/-- A read request lying inside `[0, shape)` of the source it addresses:
the input source for an input read, the target source for a target read. -/
def readOKFor (inp : Src) (tso : Option Src) (r : ReadReq) : Prop :=
  if r.target = false then
    0 ≤ r.lo.z ∧ 0 ≤ r.lo.y ∧ 0 ≤ r.lo.x ∧
    r.hiEx.z ≤ (spat inp).z ∧ r.hiEx.y ≤ (spat inp).y ∧ r.hiEx.x ≤ (spat inp).x
  else
    ∃ ts, tso = some ts ∧
      0 ≤ r.lo.z ∧ 0 ≤ r.lo.y ∧ 0 ≤ r.lo.x ∧
      r.hiEx.z ≤ (spat ts).z ∧ r.hiEx.y ≤ (spat ts).y ∧ r.hiEx.x ≤ (spat ts).x

/-- Geometry/bounds failures of the input stage of `warp_slice`
(dimensionality, singular matrix, input-corner bounds). -/
def inputStageErr (e : PyErr) : Prop :=
  e = .notImplemented ∨ e = .wrongDim ∨ e = .linAlgError ∨ e = .oob false

/-- Geometry/bounds failures of the target stage of `warp_slice`
(missing/malformed target geometry, centering, target bounds), all of
which the source raises only after the input read has been issued. -/
def targetGeomErr (e : PyErr) : Prop :=
  e = .typeError ∨ e = .indexError ∨ e = .broadcastError
  ∨ e = .centeringError ∨ e = .emptyReduction ∨ e = .oob true

/-- Concrete 4-d input fixture of spatial shape `(4, 4, 4)` whose voxel
values encode their own coordinates. -/
def srcCube : Src := ⟨[1, 4, 4, 4], fun k u v w => (k : ℚ) + 10*u + 100*v + 1000*w⟩

/-- Concrete 4-d input fixture of spatial shape `(2, 2, 2)`. -/
def srcTiny : Src := ⟨[1, 2, 2, 2], fun k u v w => (k : ℚ) + 10*u + 100*v + 1000*w⟩

/-- Concrete target fixture whose spatial shape `(3, 4, 4)` differs from
`srcCube`'s by an odd amount on the first axis. -/
def tgtOddCentering : Src := ⟨[1, 3, 4, 4], fun _ _ _ _ => 0⟩

/-- Concrete 3-d (channel-less) source fixture. -/
def src3d : Src := ⟨[2, 2, 2], fun _ _ _ _ => 0⟩

/-- Concrete well-formed target fixture of spatial shape `(4, 4, 4)`. -/
def tgtCube : Src := ⟨[1, 4, 4, 4], fun _ u _ _ => if u = 0 then 1 else 2⟩

/-- Concrete target fixture of spatial shape `(8, 8, 8)`: large enough
that a target patch shape bigger than the input patch passes the bounds
gate, reaching the post-read resampling broadcast failure. -/
def tgtWide : Src := ⟨[1, 8, 8, 8], fun _ _ _ _ => 0⟩

/-- Safety of one resampler access on an offset-corrected coordinate
`coord - lo` against a fetched sub-cube of extent `hi + 1 - lo`: the two
trilinear indices `trunc32` / `trunc32 + 1` of `map_coordinates_linear`
and the rounded index `npRound` of `map_coordinates_nearest` all lie in
`[0, hi + 1 - lo)`, per axis. -/
def resamplerInCube (coord : V3 ℚ) (lo hi : V3 ℤ) : Prop :=
  (0 ≤ trunc32 (coord.z - (lo.z : ℚ)) ∧
    trunc32 (coord.z - (lo.z : ℚ)) + 1 < hi.z + 1 - lo.z ∧
    0 ≤ npRound (coord.z - (lo.z : ℚ)) ∧
    npRound (coord.z - (lo.z : ℚ)) < hi.z + 1 - lo.z) ∧
  (0 ≤ trunc32 (coord.y - (lo.y : ℚ)) ∧
    trunc32 (coord.y - (lo.y : ℚ)) + 1 < hi.y + 1 - lo.y ∧
    0 ≤ npRound (coord.y - (lo.y : ℚ)) ∧
    npRound (coord.y - (lo.y : ℚ)) < hi.y + 1 - lo.y) ∧
  (0 ≤ trunc32 (coord.x - (lo.x : ℚ)) ∧
    trunc32 (coord.x - (lo.x : ℚ)) + 1 < hi.x + 1 - lo.x ∧
    0 ≤ npRound (coord.x - (lo.x : ℚ)) ∧
    npRound (coord.x - (lo.x : ℚ)) < hi.x + 1 - lo.x)

theorem trunc32_nonneg {q : ℚ} (h : 0 ≤ q) : trunc32 q = ⌊q⌋ := by
  simp [trunc32, h]

/-- C6: for every source sub-cube and every coordinate whose
offset-corrected components are non-negative, `map_coordinates_linear`
returns exactly the 8-neighbour weighted sum of the spec: each corner of
the surrounding unit cell weighted by the product over axes of the
fractional part (high side) or one minus it (low side). -/
theorem C6_trilinear_formula (src : ℤ → ℤ → ℤ → ℚ) (coords lo : V3 ℚ)
    (hz : 0 ≤ coords.z - lo.z) (hy : 0 ≤ coords.y - lo.y)
    (hx : 0 ≤ coords.x - lo.x) :
    map_coordinates_linear src coords lo = trilinearRef src coords lo := by
  simp only [map_coordinates_linear, trilinearRef]
  rw [trunc32_nonneg hz, trunc32_nonneg hy, trunc32_nonneg hx]
  ring

/-- Closed instantiation of `C6_trilinear_formula` at a fractional
coordinate. -/
theorem C6_trilinear_formula_witness :
    ((0 : ℚ) ≤ 7/4 - 1/2 ∧ (0 : ℚ) ≤ 3/2 - 1/2 ∧ (0 : ℚ) ≤ 5/4 - 1/2) ∧
    map_coordinates_linear (fun u v w => (10*u + 100*v + 1000*w : ℚ))
        ⟨7/4, 3/2, 5/4⟩ ⟨1/2, 1/2, 1/2⟩
      = trilinearRef (fun u v w => (10*u + 100*v + 1000*w : ℚ))
        ⟨7/4, 3/2, 5/4⟩ ⟨1/2, 1/2, 1/2⟩ :=
  ⟨by norm_num,
   C6_trilinear_formula _ _ _ (by norm_num) (by norm_num) (by norm_num)⟩

/-- C2: refuted determinism — the warp factor of the composed transform
is drawn from the **ambient global** `np.random` stream (the source calls
`np.random.uniform`, ignoring its `rng` parameter), so two calls with
identical arguments (`warp_amount = 1`, `perspective = true`) and an
identically re-seeded passed generator, but different ambient global
state, return different matrices. -/
theorem C2_warp_uses_global_rng :
    get_warped_coord_transform T0 [100, 100, 100] ⟨40, 40, 40⟩ 2 true 1 true false true
        (some [80, 80, 80]) (some ⟨20, 20, 20⟩) (cst 0) (cst 0)
      ≠ get_warped_coord_transform T0 [100, 100, 100] ⟨40, 40, 40⟩ 2 true 1 true false true
        (some [80, 80, 80]) (some ⟨20, 20, 20⟩) (cst 0) (cst (1/2)) := by
  intro hcontra
  have h := congrArg (fun r => exEntry r 1 1) hcontra
  revert h
  decide

/-- C4: calling the transform builder with `target_src_shape` and
`target_patch_shape` omitted (`None`) raises `TypeError` instead of
drawing the center from the untargeted bounds — `target_src_shape[-3:]`
subscripts `None`, and the untargeted branch is dead since
`np.array(None) is not None`; likewise a `None` target patch shape alone
raises at `target_patch_shape / 2`. -/
theorem C4_none_target_raises :
    exErr (get_warped_coord_transform T0 [100, 100, 100] ⟨40, 40, 40⟩ 2 true 1 true false false
        none none (cst 0) (cst 0)) = some .typeError ∧
    exErr (get_warped_coord_transform T0 [100, 100, 100] ⟨40, 40, 40⟩ 2 true 1 true false false
        (some [100, 100, 100]) none (cst 0) (cst 0)) = some .typeError := by
  decide

/-- C1 counterexample: with `M = identity()` and patch shape equal to the
source's spatial shape, `warp_slice` raises `WarpingOOBError` (the `+1`
trilinear margin pushes `hi` to the shape bound, failing `hi >= sh`)
instead of returning the volume. -/
theorem C1_full_patch_raises_oob :
    outErr (warp_slice srcTiny ⟨2, 2, 2⟩ identity none none none)
      = some (.oob false) := by
  decide

/-- C3 counterexample: a geometry failure (the target centering check)
raised only *after* the input-source read was issued, contradicting
fail-fast-before-any-read. -/
theorem C3_centering_error_after_input_read :
    outErr (warp_slice srcCube ⟨2, 2, 2⟩ identity (some tgtOddCentering)
        (some ⟨2, 2, 2⟩) none) = some .centeringError ∧
    (warp_slice srcCube ⟨2, 2, 2⟩ identity (some tgtOddCentering)
        (some ⟨2, 2, 2⟩) none).reads = [⟨false, ⟨0, 0, 0⟩, ⟨3, 3, 3⟩⟩] := by
  decide

/-- C7 counterexample: `get_warped_coord_transform` succeeds (returns a
matrix) for `inputShape = (100,100,100)`, `targetShape = (81,80,80)` —
an odd shape difference — because it floor-divides the offset without any
parity check; the claimed configuration error is raised only by
`warp_slice`. -/
theorem C7_builder_accepts_odd_offset :
    exIsOk (get_warped_coord_transform T0 [100, 100, 100] ⟨40, 40, 40⟩ 2 true 0 true true false
        (some [81, 80, 80]) (some ⟨20, 20, 20⟩) (cst 0) (cst 0)) = true := by
  decide

theorem slice_h5_ok_shape {s : Src} {lo hiEx : V3 ℤ} {f} (h : slice_h5 s lo hiEx = .ok f) :
    s.shape.length = 4 := by
  unfold slice_h5 at h
  split at h
  · simp_all
  · exact absurd h (by simp)

theorem wsTargetStage_ok_shape {sh p : V3 ℕ} {coords} {ts : Src} {tpo tdo} {tgt}
    (h : (wsTargetStage sh p coords ts tpo tdo).2 = .ok tgt) :
    ts.shape.length = 4 := by
  unfold wsTargetStage at h
  split at h
  · exact absurd h (by simp)
  · dsimp only at h
    split at h
    · exact absurd h (by simp)
    · rename_i hsl
      split at h
      · exact absurd h (by simp)
      · split at h
        · exact absurd h (by simp)
        · exact slice_h5_ok_shape hsl

/-- C8: every source array consumed by `warp_slice` must be exactly
4-dimensional: a 3-dimensional input raises `NotImplementedError` with no
read issued, any other non-4-dimensional input also fails with no read
issued, and a call whose target source is not 4-dimensional never
returns successfully. -/
theorem C8_sources_must_be_4d (s : Src) (p : V3 ℕ) (M : Mat4)
    (tso : Option Src) (tpo : Option (V3 ℕ)) (tdo : Option (List ℕ)) :
    (s.shape.length = 3 →
      warp_slice s p M tso tpo tdo = ⟨[], .error .notImplemented⟩) ∧
    (s.shape.length ≠ 4 →
      (∃ e, (warp_slice s p M tso tpo tdo).out = .error e) ∧
      (warp_slice s p M tso tpo tdo).reads = []) ∧
    (∀ ts, tso = some ts → ts.shape.length ≠ 4 →
      ∃ e, (warp_slice s p M tso tpo tdo).out = .error e) := by
  refine ⟨?_, ?_, ?_⟩
  · intro h3
    unfold warp_slice
    split
    · rfl
    · rename_i n_f d h w heq
      rw [heq] at h3
      simp at h3
    · rename_i hn3 hn4
      obtain ⟨a, b, c, habc⟩ := List.length_eq_three.mp h3
      exact absurd habc (by intro hh; exact hn3 a b c hh)
  · intro h4
    unfold warp_slice
    split
    · exact ⟨⟨_, rfl⟩, rfl⟩
    · rename_i n_f d h w heq
      rw [heq] at h4
      simp at h4
    · exact ⟨⟨_, rfl⟩, rfl⟩
  · intro ts hts h4
    subst hts
    unfold warp_slice
    iterate 6
      all_goals try dsimp only
      all_goals try split
    all_goals
      first
        | exact ⟨_, rfl⟩
        | (rename_i htgtm
           exact absurd (wsTargetStage_ok_shape (by rw [htgtm])) h4)

theorem boundsGate_ok {lo hi : V3 ℤ} {shape1 : List ℕ} {pre0 pre : TargPre}
    (h : boundsGate lo hi shape1 pre0 = .ok pre) :
    pre = pre0 ∧ 0 ≤ lo.z ∧ 0 ≤ lo.y ∧ 0 ≤ lo.x ∧
    ∀ d' h' w' : ℕ, shape1 = [d', h', w'] →
      hi.z < (d' : ℤ) ∧ hi.y < (h' : ℤ) ∧ hi.x < (w' : ℤ) := by
  unfold boundsGate at h
  split at h
  · exact absurd h (by simp)
  · rename_i ge hge
    split at h
    · exact absurd h (by simp)
    · rename_i hguard
      simp only [Except.ok.injEq] at h
      simp only [not_or, not_lt] at hguard
      obtain ⟨hz, hy, hx, hg⟩ := hguard
      refine ⟨h.symm, hz, hy, hx, ?_⟩
      intro d' h' w' hsh
      rw [hsh] at hge
      simp only [anyGE3, Except.ok.injEq] at hge
      rw [← hge] at hg
      simp only [decide_eq_true_eq, not_or, not_le] at hg
      exact hg

theorem wsTargetPre_ok_gate {sh p : V3 ℕ} {coords} {ts : Src} {tpo}
    {pre : TargPre} (h : wsTargetPre sh p coords ts tpo = .ok pre) :
    ∃ pre0, boundsGate pre0.lo_targ pre0.hi_targ (ts.shape.drop 1) pre0 = .ok pre := by
  unfold wsTargetPre at h
  dsimp only at h
  iterate 12
    all_goals try split at h
  all_goals try exact Except.noConfusion h
  all_goals exact ⟨⟨_, _, _, _, _, _, _⟩, h⟩

theorem wsTargetPre_ok_bounds {sh p : V3 ℕ} {coords} {ts : Src} {tpo}
    {pre : TargPre} {c' d' h' w' : ℕ} (hts : ts.shape = [c', d', h', w'])
    (h : wsTargetPre sh p coords ts tpo = .ok pre) :
    0 ≤ pre.lo_targ.z ∧ 0 ≤ pre.lo_targ.y ∧ 0 ≤ pre.lo_targ.x ∧
    pre.hi_targ.z < (d' : ℤ) ∧ pre.hi_targ.y < (h' : ℤ) ∧ pre.hi_targ.x < (w' : ℤ) := by
  obtain ⟨pre0, hgate⟩ := wsTargetPre_ok_gate h
  obtain ⟨rfl, hz, hy, hx, hb⟩ := boundsGate_ok hgate
  have hdrop : ts.shape.drop 1 = [d', h', w'] := by rw [hts]; rfl
  obtain ⟨b1, b2, b3⟩ := hb d' h' w' hdrop
  exact ⟨hz, hy, hx, b1, b2, b3⟩

theorem wsTargetStage_read {sh p : V3 ℕ} {coords} {ts : Src} {tpo tdo}
    {r : ReadReq} (h : (wsTargetStage sh p coords ts tpo tdo).1 = some r) :
    ∃ pre, wsTargetPre sh p coords ts tpo = .ok pre ∧
      r = ⟨true, pre.lo_targ,
        ⟨pre.hi_targ.z + 1, pre.hi_targ.y + 1, pre.hi_targ.x + 1⟩⟩ := by
  unfold wsTargetStage at h
  split at h
  · exact absurd h (by simp)
  · rename_i pre hpre
    dsimp only at h
    iterate 3
      all_goals try split at h
    all_goals
      simp only [Option.some.injEq] at h
      exact ⟨pre, hpre, h.symm⟩

/-- C5: for every `warp_slice` call on 4-dimensional sources, every
region read issued to a volumetric source satisfies
`0 <= loInclusive` and `hiExclusive <= shape` on every spatial axis —
the engine never requests a region outside the source extent, for both
the input-source read and the target-source read. -/
theorem C5_reads_in_bounds (s : Src) (c d h w : ℕ) (p : V3 ℕ) (M : Mat4)
    (tso : Option Src) (tpo : Option (V3 ℕ)) (tdo : Option (List ℕ))
    (hs : s.shape = [c, d, h, w])
    (hts : ∀ ts, tso = some ts → ∃ c' d' h' w', ts.shape = [c', d', h', w']) :
    ∀ r ∈ (warp_slice s p M tso tpo tdo).reads, readOKFor s tso r := by
  unfold warp_slice
  split
  · simp
  · rename_i n_f d0 h0 w0 heq
    rw [heq] at hs
    simp only [List.cons.injEq, and_true] at hs
    obtain ⟨rfl, rfl, rfl, rfl, _⟩ := hs
    dsimp only
    split
    · simp
    · split
      · simp
      · rename_i hguard
        simp only [not_or, not_lt, not_le] at hguard
        obtain ⟨hlz, hly, hlx, hhz, hhy, hhx⟩ := hguard
        have hreq : readOKFor s tso
            ⟨false, cornerLo (inv4 M) (decide (M 3 0 ≠ 0 ∨ M 3 1 ≠ 0 ∨ M 3 2 ≠ 0)) p,
             ⟨(cornerHi (inv4 M) (decide (M 3 0 ≠ 0 ∨ M 3 1 ≠ 0 ∨ M 3 2 ≠ 0)) p).z + 1,
              (cornerHi (inv4 M) (decide (M 3 0 ≠ 0 ∨ M 3 1 ≠ 0 ∨ M 3 2 ≠ 0)) p).y + 1,
              (cornerHi (inv4 M) (decide (M 3 0 ≠ 0 ∨ M 3 1 ≠ 0 ∨ M 3 2 ≠ 0)) p).x + 1⟩⟩ := by
          simp only [readOKFor, spat, heq, if_pos rfl, List.getD_cons_succ,
            List.getD_cons_zero]
          refine ⟨hlz, hly, hlx, ?_, ?_, ?_⟩ <;> omega
        split
        · intro r hr
          simp only [List.mem_cons, List.not_mem_nil, or_false] at hr
          subst hr
          exact hreq
        · split
          · intro r hr
            simp only [List.mem_cons, List.not_mem_nil, or_false] at hr
            subst hr
            exact hreq
          · rename_i ts
            split
            · intro r hr
              simp only [List.mem_cons, List.not_mem_nil, or_false] at hr
              subst hr
              exact hreq
            · rename_i xx tr e hstage
              intro r hr
              simp only [List.mem_cons, List.not_mem_nil, or_false] at hr
              rcases hr with rfl | rfl
              · exact hreq
              · have h1 : (wsTargetStage ⟨d0, h0, w⟩ p
                    (srcCoord (inv4 M) (decide (M 3 0 ≠ 0 ∨ M 3 1 ≠ 0 ∨ M 3 2 ≠ 0))) ts tpo tdo).1
                    = some r := by rw [hstage]
                obtain ⟨pre, hpre, rfl⟩ := wsTargetStage_read h1
                obtain ⟨c', d', h', w', hts4⟩ := hts ts rfl
                obtain ⟨b1, b2, b3, b4, b5, b6⟩ := wsTargetPre_ok_bounds hts4 hpre
                simp only [readOKFor, spat, List.getD_cons_succ, List.getD_cons_zero]
                refine ⟨ts, rfl, b1, b2, b3, ?_, ?_, ?_⟩ <;>
                  (simp only [hts4, List.getD_cons_succ, List.getD_cons_zero]; omega)
            · rename_i xx tr tgt hstage
              intro r hr
              simp only [List.mem_cons, List.not_mem_nil, or_false] at hr
              rcases hr with rfl | rfl
              · exact hreq
              · have h1 : (wsTargetStage ⟨d0, h0, w⟩ p
                    (srcCoord (inv4 M) (decide (M 3 0 ≠ 0 ∨ M 3 1 ≠ 0 ∨ M 3 2 ≠ 0))) ts tpo tdo).1
                    = some r := by rw [hstage]
                obtain ⟨pre, hpre, rfl⟩ := wsTargetStage_read h1
                obtain ⟨c', d', h', w', hts4⟩ := hts ts rfl
                obtain ⟨b1, b2, b3, b4, b5, b6⟩ := wsTargetPre_ok_bounds hts4 hpre
                simp only [readOKFor, spat, List.getD_cons_succ, List.getD_cons_zero]
                refine ⟨ts, rfl, b1, b2, b3, ?_, ?_, ?_⟩ <;>
                  (simp only [hts4, List.getD_cons_succ, List.getD_cons_zero]; omega)
            · intro r hr
              simp only [List.mem_cons, List.not_mem_nil, or_false] at hr
              subst hr
              exact hreq
  · simp

/-- Closed instantiation of `C5_reads_in_bounds`: a call with a target
that issues both reads. -/
theorem C5_reads_in_bounds_witness :
    srcCube.shape = [1, 4, 4, 4] ∧
    ∀ r ∈ (warp_slice srcCube ⟨2, 2, 2⟩ identity (some tgtCube)
        (some ⟨2, 2, 2⟩) none).reads, readOKFor srcCube (some tgtCube) r :=
  ⟨rfl, C5_reads_in_bounds srcCube 1 4 4 4 ⟨2, 2, 2⟩ identity (some tgtCube)
    (some ⟨2, 2, 2⟩) none rfl
    (fun ts hts => by cases hts; exact ⟨1, 4, 4, 4, rfl⟩)⟩

theorem bsub3_error_eq {a : V3 ℤ} {b : List ℕ} {e} (h : bsub3 a b = .error e) :
    e = .broadcastError := by
  unfold bsub3 at h
  split at h <;> simp_all

theorem anyGE3_error_eq {a : V3 ℤ} {b : List ℕ} {e} (h : anyGE3 a b = .error e) :
    e = .broadcastError := by
  unfold anyGE3 at h
  split at h <;> simp_all

theorem slice_h5_error_eq {s : Src} {lo hiEx : V3 ℤ} {e}
    (h : slice_h5 s lo hiEx = .error e) : e = .sliceError := by
  unfold slice_h5 at h
  split at h <;> simp_all

theorem slice_h5_4d_ok {s : Src} {c d h w : ℕ} (hs : s.shape = [c, d, h, w])
    (lo hiEx : V3 ℤ) : ∃ f, slice_h5 s lo hiEx = .ok f := by
  unfold slice_h5
  rw [hs]
  exact ⟨_, rfl⟩

theorem boundsGate_error_class {lo hi : V3 ℤ} {shape1 : List ℕ}
    {pre0 : TargPre} {e} (h : boundsGate lo hi shape1 pre0 = .error e) :
    e = .broadcastError ∨ e = .oob true := by
  unfold boundsGate at h
  split at h
  · rename_i ha
    simp only [Except.error.injEq] at h
    subst h
    exact Or.inl (anyGE3_error_eq ha)
  · split at h
    · simp only [Except.error.injEq] at h
      subst h
      exact Or.inr rfl
    · exact absurd h (by simp)

theorem wsTargetPre_error_class {sh p : V3 ℕ} {coords} {ts : Src} {tpo} {e}
    (h : wsTargetPre sh p coords ts tpo = .error e) : targetGeomErr e := by
  unfold wsTargetPre at h
  dsimp only at h
  iterate 12
    all_goals try split at h
  all_goals try (simp only [Except.error.injEq] at h
                 subst h)
  all_goals try (simp only [targetGeomErr]
                 simp)
  all_goals
    first
      | (rename_i hb
         rw [bsub3_error_eq hb]
         simp [targetGeomErr])
      | (rcases boundsGate_error_class h with rfl | rfl <;> simp [targetGeomErr])

theorem wsTargetStage_some_error_class {sh p : V3 ℕ} {coords} {ts : Src}
    {tpo tdo} {tr : ReadReq} {e}
    (h : wsTargetStage sh p coords ts tpo tdo = (some tr, .error e)) :
    e = .sliceError ∨ e = .emptyChannels ∨ e = .resampleShapeError := by
  unfold wsTargetStage at h
  split at h
  · simp_all
  · dsimp only at h
    split at h
    · rename_i hsl
      simp only [Prod.mk.injEq, Except.error.injEq] at h
      obtain ⟨h1, h2⟩ := h
      subst h2
      exact Or.inl (slice_h5_error_eq hsl)
    · split at h
      · simp only [Prod.mk.injEq, Except.error.injEq] at h
        obtain ⟨h1, h2⟩ := h
        subst h2
        exact Or.inr (Or.inl rfl)
      · split at h
        · simp only [Prod.mk.injEq, Except.error.injEq] at h
          obtain ⟨h1, h2⟩ := h
          subst h2
          exact Or.inr (Or.inr rfl)
        · exfalso
          simp at h

theorem wsTargetStage_none_error_class {sh p : V3 ℕ} {coords} {ts : Src}
    {tpo tdo} {e}
    (h : wsTargetStage sh p coords ts tpo tdo = (none, .error e)) :
    targetGeomErr e := by
  unfold wsTargetStage at h
  split at h
  · rename_i hpre
    simp only [Prod.mk.injEq, Except.error.injEq] at h
    rw [← h.2]
    exact wsTargetPre_error_class hpre
  · dsimp only at h
    iterate 3
      all_goals try split at h
    all_goals simp_all

/-- C3 (amended): input-stage geometry/bounds failures (dimensionality,
singular matrix, input-corner out-of-bounds) are raised before any
source read; the *detected* target-stage geometry/bounds failures
(missing or malformed target geometry, both centering checks, the empty
sub-grid reduction and the target-region out-of-bounds check) are raised
only after the input-source read has been issued but before the
target-source read, so such a call has issued exactly the input read;
and two failures are detected by no pre-read check at all — the
zero-channel `target_cut.max()` reduction and the resampling broadcast
mismatch of a clipped coordinate sub-grid against the target patch —
and surface only after *both* reads have been issued. -/
theorem C3_amended (s : Src) (p : V3 ℕ) (M : Mat4) (tso : Option Src)
    (tpo : Option (V3 ℕ)) (tdo : Option (List ℕ)) :
    (∀ e, inputStageErr e → (warp_slice s p M tso tpo tdo).out = .error e →
      (warp_slice s p M tso tpo tdo).reads = []) ∧
    (∀ e, targetGeomErr e → (warp_slice s p M tso tpo tdo).out = .error e →
      (warp_slice s p M tso tpo tdo).reads.map ReadReq.target = [false]) ∧
    (∀ e, e = .emptyChannels ∨ e = .resampleShapeError →
      (warp_slice s p M tso tpo tdo).out = .error e →
      (warp_slice s p M tso tpo tdo).reads.map ReadReq.target = [false, true]) := by
  refine ⟨?_, ?_, ?_⟩
  · intro e hcls
    unfold warp_slice
    split
    · intro _; rfl
    · rename_i n_f d0 h0 w0 heq
      dsimp only
      split
      · intro _; rfl
      · split
        · intro _; rfl
        · split
          · rename_i hsl
            obtain ⟨f, hf⟩ := slice_h5_4d_ok heq
              (cornerLo (inv4 M) (decide (M 3 0 ≠ 0 ∨ M 3 1 ≠ 0 ∨ M 3 2 ≠ 0)) p) _
            rw [hf] at hsl
            exact absurd hsl (by simp)
          · split
            · intro hout
              exact absurd hout (by simp)
            · rename_i ts
              split
              · intro hout
                simp only [Except.error.injEq] at hout
                subst hout
                exfalso
                have hcT := wsTargetStage_none_error_class (by assumption)
                rcases hcls with rfl | rfl | rfl | rfl <;>
                  simp [targetGeomErr] at hcT
              · intro hout
                simp only [Except.error.injEq] at hout
                subst hout
                exfalso
                have hcT := wsTargetStage_some_error_class (by assumption)
                rcases hcls with rfl | rfl | rfl | rfl <;>
                  simp at hcT
              · intro hout
                exact absurd hout (by simp)
              · intro hout
                exact absurd hout (by simp)
    · intro _; rfl
  · intro e hcls
    unfold warp_slice
    split
    · intro hout
      simp only [Except.error.injEq] at hout
      subst hout
      exact absurd hcls (by simp [targetGeomErr])
    · rename_i n_f d0 h0 w0 heq
      dsimp only
      split
      · intro hout
        simp only [Except.error.injEq] at hout
        subst hout
        exact absurd hcls (by simp [targetGeomErr])
      · split
        · intro hout
          simp only [Except.error.injEq] at hout
          subst hout
          exact absurd hcls (by simp [targetGeomErr])
        · split
          · rename_i hsl
            obtain ⟨f, hf⟩ := slice_h5_4d_ok heq
              (cornerLo (inv4 M) (decide (M 3 0 ≠ 0 ∨ M 3 1 ≠ 0 ∨ M 3 2 ≠ 0)) p) _
            rw [hf] at hsl
            exact absurd hsl (by simp)
          · split
            · intro hout
              exact absurd hout (by simp)
            · rename_i ts
              split
              · intro _; rfl
              · intro hout
                simp only [Except.error.injEq] at hout
                subst hout
                exfalso
                have hcT := wsTargetStage_some_error_class (by assumption)
                rcases hcT with rfl | rfl | rfl <;>
                  exact absurd hcls (by simp [targetGeomErr])
              · intro hout
                exact absurd hout (by simp)
              · intro hout
                exact absurd hout (by simp)
    · intro hout
      simp only [Except.error.injEq] at hout
      subst hout
      exact absurd hcls (by simp [targetGeomErr])
  · intro e hcls
    unfold warp_slice
    split
    · intro hout
      simp only [Except.error.injEq] at hout
      subst hout
      rcases hcls with h | h <;> exact PyErr.noConfusion h
    · rename_i n_f d0 h0 w0 heq
      dsimp only
      split
      · intro hout
        simp only [Except.error.injEq] at hout
        subst hout
        rcases hcls with h | h <;> exact PyErr.noConfusion h
      · split
        · intro hout
          simp only [Except.error.injEq] at hout
          subst hout
          rcases hcls with h | h <;> exact PyErr.noConfusion h
        · split
          · rename_i hsl
            obtain ⟨f, hf⟩ := slice_h5_4d_ok heq
              (cornerLo (inv4 M) (decide (M 3 0 ≠ 0 ∨ M 3 1 ≠ 0 ∨ M 3 2 ≠ 0)) p) _
            rw [hf] at hsl
            exact absurd hsl (by simp)
          · split
            · intro hout
              exact absurd hout (by simp)
            · rename_i ts
              split
              · intro hout
                simp only [Except.error.injEq] at hout
                subst hout
                exfalso
                have hcT := wsTargetStage_none_error_class (by assumption)
                rcases hcls with rfl | rfl <;>
                  simp [targetGeomErr] at hcT
              · rename_i tr e2 hstage
                intro hout
                have h1 : (wsTargetStage ⟨d0, h0, w0⟩ p
                    (srcCoord (inv4 M) (decide (M 3 0 ≠ 0 ∨ M 3 1 ≠ 0 ∨ M 3 2 ≠ 0))) ts tpo tdo).1
                    = some tr := by rw [hstage]
                obtain ⟨pre, hpre, rfl⟩ := wsTargetStage_read h1
                rfl
              · intro hout
                exact absurd hout (by simp)
              · intro hout
                exact absurd hout (by simp)
    · intro hout
      simp only [Except.error.injEq] at hout
      subst hout
      rcases hcls with h | h <;> exact PyErr.noConfusion h

theorem outErr_some {r : WRes} {e : PyErr} (h : outErr r = some e) :
    r.out = .error e := by
  unfold outErr at h
  split at h
  · simp_all
  · simp_all

/-- Closed instantiation of `C3_amended`: the centering failure of the
`C3_centering_error_after_input_read` scenario leaves exactly the input
read issued, and a target patch shape larger than the input patch
(clipped sub-grid of length 2 per axis against a size-6 target patch)
fails only at the resampling call, after both reads. -/
theorem C3_amended_witness :
    (targetGeomErr .centeringError ∧
     (warp_slice srcCube ⟨2, 2, 2⟩ identity (some tgtOddCentering)
       (some ⟨2, 2, 2⟩) none).reads.map ReadReq.target = [false]) ∧
    (warp_slice srcCube ⟨2, 2, 2⟩ identity (some tgtWide)
      (some ⟨6, 6, 6⟩) none).reads.map ReadReq.target = [false, true] :=
  ⟨⟨by simp [targetGeomErr],
    (C3_amended srcCube ⟨2, 2, 2⟩ identity (some tgtOddCentering)
      (some ⟨2, 2, 2⟩) none).2.1 .centeringError (by simp [targetGeomErr])
      (outErr_some (by decide))⟩,
   (C3_amended srcCube ⟨2, 2, 2⟩ identity (some tgtWide)
      (some ⟨6, 6, 6⟩) none).2.2 .resampleShapeError (Or.inr rfl)
      (outErr_some (by decide))⟩

theorem wsTargetPre_centering {sh p : V3 ℕ} {coords} {ts : Src} {tp : V3 ℕ}
    {c' d' h' w' : ℕ} (hts : ts.shape = [c', d', h', w'])
    (hodd : ¬(((sh.z : ℤ) - (d' : ℤ)) % 2 = 0 ∧ ((sh.y : ℤ) - (h' : ℤ)) % 2 = 0
      ∧ ((sh.x : ℤ) - (w' : ℤ)) % 2 = 0)) :
    wsTargetPre sh p coords ts (some tp) = .error .centeringError := by
  unfold wsTargetPre
  rw [hts]
  dsimp only [List.head?, List.drop, bsub3]
  rw [if_pos hodd]

theorem warp_slice_target_err {s : Src} {c d h w : ℕ} {p : V3 ℕ} {M : Mat4}
    {ts : Src} {tpo : Option (V3 ℕ)} {tdo : Option (List ℕ)} {e : PyErr}
    (hs : s.shape = [c, d, h, w]) (hdet : ¬det4 M = 0)
    (hpass : ¬((cornerLo (inv4 M) (decide (M 3 0 ≠ 0 ∨ M 3 1 ≠ 0 ∨ M 3 2 ≠ 0)) p).z < 0
      ∨ (cornerLo (inv4 M) (decide (M 3 0 ≠ 0 ∨ M 3 1 ≠ 0 ∨ M 3 2 ≠ 0)) p).y < 0
      ∨ (cornerLo (inv4 M) (decide (M 3 0 ≠ 0 ∨ M 3 1 ≠ 0 ∨ M 3 2 ≠ 0)) p).x < 0
      ∨ (d : ℤ) ≤ (cornerHi (inv4 M) (decide (M 3 0 ≠ 0 ∨ M 3 1 ≠ 0 ∨ M 3 2 ≠ 0)) p).z
      ∨ (h : ℤ) ≤ (cornerHi (inv4 M) (decide (M 3 0 ≠ 0 ∨ M 3 1 ≠ 0 ∨ M 3 2 ≠ 0)) p).y
      ∨ (w : ℤ) ≤ (cornerHi (inv4 M) (decide (M 3 0 ≠ 0 ∨ M 3 1 ≠ 0 ∨ M 3 2 ≠ 0)) p).x))
    (hstage : (wsTargetStage ⟨d, h, w⟩ p
      (srcCoord (inv4 M) (decide (M 3 0 ≠ 0 ∨ M 3 1 ≠ 0 ∨ M 3 2 ≠ 0))) ts tpo tdo).2
      = .error e) :
    (warp_slice s p M (some ts) tpo tdo).out = .error e := by
  unfold warp_slice
  rw [hs]
  dsimp only
  rw [if_neg hdet, if_neg hpass]
  obtain ⟨f, hf⟩ := slice_h5_4d_ok hs
    (cornerLo (inv4 M) (decide (M 3 0 ≠ 0 ∨ M 3 1 ≠ 0 ∨ M 3 2 ≠ 0)) p)
    ⟨(cornerHi (inv4 M) (decide (M 3 0 ≠ 0 ∨ M 3 1 ≠ 0 ∨ M 3 2 ≠ 0)) p).z + 1,
     (cornerHi (inv4 M) (decide (M 3 0 ≠ 0 ∨ M 3 1 ≠ 0 ∨ M 3 2 ≠ 0)) p).y + 1,
     (cornerHi (inv4 M) (decide (M 3 0 ≠ 0 ∨ M 3 1 ≠ 0 ∨ M 3 2 ≠ 0)) p).x + 1⟩
  rw [hf]
  dsimp only
  rcases hst : wsTargetStage ⟨d, h, w⟩ p
      (srcCoord (inv4 M) (decide (M 3 0 ≠ 0 ∨ M 3 1 ≠ 0 ∨ M 3 2 ≠ 0))) ts tpo tdo
    with ⟨ro, oo⟩
  rw [hst] at hstage
  dsimp only at hstage
  subst hstage
  rcases ro with _ | tr <;> rfl

/-- C7 (corrected): the centering offset for `inputShape = (100,100,100)`
and `targetShape = (80,80,80)` is `(10,10,10)`, and an odd component of
`inputShape - targetShape` makes `warp_slice` fail with the configuration
error `"targets must be centered w.r.t. images"` — but only `warp_slice`
checks this: `get_warped_coord_transform` floor-divides the offset
without any parity check (see `C7_builder_accepts_odd_offset`). -/
theorem C7_amended :
    centeringOffset ⟨100, 100, 100⟩ ⟨80, 80, 80⟩ = ⟨10, 10, 10⟩ ∧
    ∀ (s ts : Src) (c d h w c' d' h' w' : ℕ) (p tp : V3 ℕ) (M : Mat4)
      (tdo : Option (List ℕ)),
      s.shape = [c, d, h, w] → ts.shape = [c', d', h', w'] →
      ¬det4 M = 0 →
      ¬((cornerLo (inv4 M) (decide (M 3 0 ≠ 0 ∨ M 3 1 ≠ 0 ∨ M 3 2 ≠ 0)) p).z < 0
        ∨ (cornerLo (inv4 M) (decide (M 3 0 ≠ 0 ∨ M 3 1 ≠ 0 ∨ M 3 2 ≠ 0)) p).y < 0
        ∨ (cornerLo (inv4 M) (decide (M 3 0 ≠ 0 ∨ M 3 1 ≠ 0 ∨ M 3 2 ≠ 0)) p).x < 0
        ∨ (d : ℤ) ≤ (cornerHi (inv4 M) (decide (M 3 0 ≠ 0 ∨ M 3 1 ≠ 0 ∨ M 3 2 ≠ 0)) p).z
        ∨ (h : ℤ) ≤ (cornerHi (inv4 M) (decide (M 3 0 ≠ 0 ∨ M 3 1 ≠ 0 ∨ M 3 2 ≠ 0)) p).y
        ∨ (w : ℤ) ≤ (cornerHi (inv4 M) (decide (M 3 0 ≠ 0 ∨ M 3 1 ≠ 0 ∨ M 3 2 ≠ 0)) p).x) →
      ¬(((d : ℤ) - (d' : ℤ)) % 2 = 0 ∧ ((h : ℤ) - (h' : ℤ)) % 2 = 0
        ∧ ((w : ℤ) - (w' : ℤ)) % 2 = 0) →
      (warp_slice s p M (some ts) (some tp) tdo).out = .error .centeringError := by
  refine ⟨by decide, ?_⟩
  intro s ts c d h w c' d' h' w' p tp M tdo hs hts hdet hpass hodd
  refine warp_slice_target_err hs hdet hpass ?_
  unfold wsTargetStage
  rw [wsTargetPre_centering hts hodd]

/-- Closed instantiation of `C7_amended` at the odd-centering scenario. -/
theorem C7_amended_witness :
    centeringOffset ⟨100, 100, 100⟩ ⟨80, 80, 80⟩ = ⟨10, 10, 10⟩ ∧
    (warp_slice srcCube ⟨2, 2, 2⟩ identity (some tgtOddCentering)
      (some ⟨2, 2, 2⟩) none).out = .error .centeringError :=
  ⟨C7_amended.1,
   C7_amended.2 srcCube tgtOddCentering 1 4 4 4 1 3 4 4 ⟨2, 2, 2⟩ ⟨2, 2, 2⟩
     identity none rfl rfl (by decide) (by decide) (by decide)⟩

/-- C9 counterexample: with `no_x_flip = true` the source substitutes the
identity for the axis-swap factor instead of drawing it from
`get_random_swapmat`, so it differs from the spec-described builder
(which always draws the swap factor) on a stream whose swap draw picks a
non-identity permutation. -/
theorem C9_swap_skipped_when_no_x_flip :
    get_warped_coord_transform T0 [100, 100, 100] ⟨40, 40, 40⟩ 2 true 0 false true false
        (some [80, 80, 80]) (some ⟨20, 20, 20⟩) seq9 (cst 0)
      ≠ get_warped_coord_transform_claim T0 [100, 100, 100] ⟨40, 40, 40⟩ 2 true 0 false true false
        (some [80, 80, 80]) (some ⟨20, 20, 20⟩) seq9 (cst 0) := by
  intro hcontra
  have h := congrArg (fun r => exEntry r 0 1) hcontra
  revert h
  decide

/-- Closed instantiation of `C8_sources_must_be_4d` at a 3-dimensional
(channel-less) source. -/
theorem C8_sources_must_be_4d_witness :
    src3d.shape.length = 3 ∧
    warp_slice src3d ⟨2, 2, 2⟩ identity none none none
      = ⟨[], .error .notImplemented⟩ :=
  ⟨rfl, (C8_sources_must_be_4d src3d ⟨2, 2, 2⟩ identity none none none).1 rfl⟩

/-- C9 (corrected): the axis-swap factor of the composed transform comes
from `get_random_swapmat` whenever `no_x_flip` is false (in which case
the source agrees with the spec-described builder); `get_random_swapmat`
returns a row permutation of the identity selected by a uniform index
into the 2-element list {identity, swap of the two non-depth axes} when
`lock_z` and the 6-element list of all spatial permutations otherwise,
with every index attainable; but when `no_x_flip` is true the swap factor
is the identity and no swap is drawn (see
`C9_swap_skipped_when_no_x_flip`). -/
theorem C9_amended :
    (∀ (T : TrigOracle) (inp : List ℕ) (p : V3 ℕ) (af : ℚ) (sa : Bool) (wa : ℚ)
      (lz px : Bool) (tss : Option (List ℕ)) (tps : Option (V3 ℕ)) (rng g : RState),
      get_warped_coord_transform T inp p af sa wa lz false px tss tps rng g
        = get_warped_coord_transform_claim T inp p af sa wa lz false px tss tps rng g) ∧
    (∀ (lz : Bool) (s : RState), ∃ i, i < (swapLists lz).length ∧
      (get_random_swapmat lz s).1 = permMat ((swapLists lz).getD i id)) ∧
    (∀ (lz : Bool) (i : ℕ), i < (swapLists lz).length →
      ∃ s : RState, (get_random_swapmat lz s).1 = permMat ((swapLists lz).getD i id)) ∧
    (swapLists true).length = 2 ∧ (swapLists false).length = 6 := by
  refine ⟨?_, ?_, ?_, by decide, by decide⟩
  · intro T inp p af sa wa lz px tss tps rng g
    rfl
  · intro lz s
    refine ⟨((⌊s.seq s.pos⌋ % ((swapLists lz).length : ℤ)).toNat), ?_, rfl⟩
    cases lz <;> simp [swapLists] <;> omega
  · intro lz i hi
    refine ⟨cst (i : ℚ), ?_⟩
    unfold get_random_swapmat RState.randidx RState.next cst
    dsimp only
    rw [Int.floor_natCast]
    have hidx : ((i : ℤ) % (((swapLists lz).length : ℕ) : ℤ)).toNat = i := by
      cases lz <;> simp [swapLists] at hi ⊢ <;> omega
    rw [hidx]

/-- Closed instantiation of `C9_amended`: the third permutation is
attainable when `lock_z` is false. -/
theorem C9_amended_witness :
    2 < (swapLists false).length ∧
    ∃ s : RState, (get_random_swapmat false s).1
      = permMat ((swapLists false).getD 2 id) :=
  ⟨by decide, C9_amended.2.2.1 false 2 (by decide)⟩

theorem min8_le {α : Type} [LinearOrder α] (f : Bool → Bool → Bool → α)
    (a b c : Bool) : min8 f ≤ f a b c := by
  cases a <;> cases b <;> cases c <;> simp [min8, min_le_iff, le_refl]

theorem le_max8 {α : Type} [LinearOrder α] (f : Bool → Bool → Bool → α)
    (a b c : Bool) : f a b c ≤ max8 f := by
  cases a <;> cases b <;> cases c <;> simp [max8, le_max_iff, le_refl]

theorem min8_mono {α : Type} [LinearOrder α] {f g : Bool → Bool → Bool → α}
    (h : ∀ a b c, f a b c ≤ g a b c) : min8 f ≤ min8 g := by
  simp only [min8]
  exact min_le_min
    (min_le_min (min_le_min (h _ _ _) (h _ _ _)) (min_le_min (h _ _ _) (h _ _ _)))
    (min_le_min (min_le_min (h _ _ _) (h _ _ _)) (min_le_min (h _ _ _) (h _ _ _)))

theorem max8_mono {α : Type} [LinearOrder α] {f g : Bool → Bool → Bool → α}
    (h : ∀ a b c, f a b c ≤ g a b c) : max8 f ≤ max8 g := by
  simp only [max8]
  exact max_le_max
    (max_le_max (max_le_max (h _ _ _) (h _ _ _)) (max_le_max (h _ _ _) (h _ _ _)))
    (max_le_max (max_le_max (h _ _ _) (h _ _ _)) (max_le_max (h _ _ _) (h _ _ _)))

theorem lin8_lo (n0 n1 n2 n3 Z Y X z y x : ℚ)
    (hz0 : 0 ≤ z) (hz1 : z ≤ Z) (hy0 : 0 ≤ y) (hy1 : y ≤ Y)
    (hx0 : 0 ≤ x) (hx1 : x ≤ X) :
    min8 (fun a b c => n0 * (if a then Z else 0) + n1 * (if b then Y else 0)
      + n2 * (if c then X else 0) + n3 * 1)
      ≤ n0 * z + n1 * y + n2 * x + n3 * 1 := by
  rcases le_total 0 n0 with h0 | h0 <;> rcases le_total 0 n1 with h1 | h1 <;>
    rcases le_total 0 n2 with h2 | h2
  · refine le_trans (min8_le _ false false false) ?_
    simp only [Bool.false_eq_true, if_false]
    nlinarith [mul_nonneg h0 hz0, mul_nonneg h1 hy0, mul_nonneg h2 hx0]
  · refine le_trans (min8_le _ false false true) ?_
    simp only [Bool.false_eq_true, if_false, if_true]
    nlinarith [mul_nonneg h0 hz0, mul_nonneg h1 hy0,
      mul_nonneg (neg_nonneg.2 h2) (sub_nonneg.2 hx1)]
  · refine le_trans (min8_le _ false true false) ?_
    simp only [Bool.false_eq_true, if_false, if_true]
    nlinarith [mul_nonneg h0 hz0, mul_nonneg (neg_nonneg.2 h1) (sub_nonneg.2 hy1),
      mul_nonneg h2 hx0]
  · refine le_trans (min8_le _ false true true) ?_
    simp only [Bool.false_eq_true, if_false, if_true]
    nlinarith [mul_nonneg h0 hz0, mul_nonneg (neg_nonneg.2 h1) (sub_nonneg.2 hy1),
      mul_nonneg (neg_nonneg.2 h2) (sub_nonneg.2 hx1)]
  · refine le_trans (min8_le _ true false false) ?_
    simp only [Bool.false_eq_true, if_false, if_true]
    nlinarith [mul_nonneg (neg_nonneg.2 h0) (sub_nonneg.2 hz1), mul_nonneg h1 hy0,
      mul_nonneg h2 hx0]
  · refine le_trans (min8_le _ true false true) ?_
    simp only [Bool.false_eq_true, if_false, if_true]
    nlinarith [mul_nonneg (neg_nonneg.2 h0) (sub_nonneg.2 hz1), mul_nonneg h1 hy0,
      mul_nonneg (neg_nonneg.2 h2) (sub_nonneg.2 hx1)]
  · refine le_trans (min8_le _ true true false) ?_
    simp only [Bool.false_eq_true, if_false, if_true]
    nlinarith [mul_nonneg (neg_nonneg.2 h0) (sub_nonneg.2 hz1),
      mul_nonneg (neg_nonneg.2 h1) (sub_nonneg.2 hy1), mul_nonneg h2 hx0]
  · refine le_trans (min8_le _ true true true) ?_
    simp only [if_true]
    nlinarith [mul_nonneg (neg_nonneg.2 h0) (sub_nonneg.2 hz1),
      mul_nonneg (neg_nonneg.2 h1) (sub_nonneg.2 hy1),
      mul_nonneg (neg_nonneg.2 h2) (sub_nonneg.2 hx1)]

theorem lin8_hi (n0 n1 n2 n3 Z Y X z y x : ℚ)
    (hz0 : 0 ≤ z) (hz1 : z ≤ Z) (hy0 : 0 ≤ y) (hy1 : y ≤ Y)
    (hx0 : 0 ≤ x) (hx1 : x ≤ X) :
    n0 * z + n1 * y + n2 * x + n3 * 1
      ≤ max8 (fun a b c => n0 * (if a then Z else 0) + n1 * (if b then Y else 0)
        + n2 * (if c then X else 0) + n3 * 1) := by
  rcases le_total 0 n0 with h0 | h0 <;> rcases le_total 0 n1 with h1 | h1 <;>
    rcases le_total 0 n2 with h2 | h2
  · refine le_trans ?_ (le_max8 _ true true true)
    simp only [if_true]
    nlinarith [mul_nonneg h0 (sub_nonneg.2 hz1), mul_nonneg h1 (sub_nonneg.2 hy1),
      mul_nonneg h2 (sub_nonneg.2 hx1)]
  · refine le_trans ?_ (le_max8 _ true true false)
    simp only [Bool.false_eq_true, if_false, if_true]
    nlinarith [mul_nonneg h0 (sub_nonneg.2 hz1), mul_nonneg h1 (sub_nonneg.2 hy1),
      mul_nonneg (neg_nonneg.2 h2) hx0]
  · refine le_trans ?_ (le_max8 _ true false true)
    simp only [Bool.false_eq_true, if_false, if_true]
    nlinarith [mul_nonneg h0 (sub_nonneg.2 hz1), mul_nonneg (neg_nonneg.2 h1) hy0,
      mul_nonneg h2 (sub_nonneg.2 hx1)]
  · refine le_trans ?_ (le_max8 _ true false false)
    simp only [Bool.false_eq_true, if_false, if_true]
    nlinarith [mul_nonneg h0 (sub_nonneg.2 hz1), mul_nonneg (neg_nonneg.2 h1) hy0,
      mul_nonneg (neg_nonneg.2 h2) hx0]
  · refine le_trans ?_ (le_max8 _ false true true)
    simp only [Bool.false_eq_true, if_false, if_true]
    nlinarith [mul_nonneg (neg_nonneg.2 h0) hz0, mul_nonneg h1 (sub_nonneg.2 hy1),
      mul_nonneg h2 (sub_nonneg.2 hx1)]
  · refine le_trans ?_ (le_max8 _ false true false)
    simp only [Bool.false_eq_true, if_false, if_true]
    nlinarith [mul_nonneg (neg_nonneg.2 h0) hz0, mul_nonneg h1 (sub_nonneg.2 hy1),
      mul_nonneg (neg_nonneg.2 h2) hx0]
  · refine le_trans ?_ (le_max8 _ false false true)
    simp only [Bool.false_eq_true, if_false, if_true]
    nlinarith [mul_nonneg (neg_nonneg.2 h0) hz0, mul_nonneg (neg_nonneg.2 h1) hy0,
      mul_nonneg h2 (sub_nonneg.2 hx1)]
  · refine le_trans ?_ (le_max8 _ false false false)
    simp only [Bool.false_eq_true, if_false]
    nlinarith [mul_nonneg (neg_nonneg.2 h0) hz0, mul_nonneg (neg_nonneg.2 h1) hy0,
      mul_nonneg (neg_nonneg.2 h2) hx0]

theorem coord_between_corners_z (N : Mat4) (p : V3 ℕ) (z y x : ℕ)
    (hz : z < p.z) (hy : y < p.y) (hx : x < p.x) :
    min8 (fun a b c => (mapCoord N false (destCorner p a b c)).z)
      ≤ (srcCoord N false z y x).z ∧
    (srcCoord N false z y x).z
      ≤ max8 (fun a b c => (mapCoord N false (destCorner p a b c)).z) := by
  have hz1 : (z : ℚ) ≤ (((p.z : ℤ) - 1 : ℤ) : ℚ) := by
    have : (z : ℤ) ≤ (p.z : ℤ) - 1 := by omega
    exact_mod_cast this
  have hy1 : (y : ℚ) ≤ (((p.y : ℤ) - 1 : ℤ) : ℚ) := by
    have : (y : ℤ) ≤ (p.y : ℤ) - 1 := by omega
    exact_mod_cast this
  have hx1 : (x : ℚ) ≤ (((p.x : ℤ) - 1 : ℤ) : ℚ) := by
    have : (x : ℤ) ≤ (p.x : ℤ) - 1 := by omega
    exact_mod_cast this
  exact ⟨lin8_lo (N 0 0) (N 0 1) (N 0 2) (N 0 3) _ _ _ _ _ _
      (Nat.cast_nonneg z) hz1 (Nat.cast_nonneg y) hy1 (Nat.cast_nonneg x) hx1,
    lin8_hi (N 0 0) (N 0 1) (N 0 2) (N 0 3) _ _ _ _ _ _
      (Nat.cast_nonneg z) hz1 (Nat.cast_nonneg y) hy1 (Nat.cast_nonneg x) hx1⟩

theorem coord_between_corners_y (N : Mat4) (p : V3 ℕ) (z y x : ℕ)
    (hz : z < p.z) (hy : y < p.y) (hx : x < p.x) :
    min8 (fun a b c => (mapCoord N false (destCorner p a b c)).y)
      ≤ (srcCoord N false z y x).y ∧
    (srcCoord N false z y x).y
      ≤ max8 (fun a b c => (mapCoord N false (destCorner p a b c)).y) := by
  have hz1 : (z : ℚ) ≤ (((p.z : ℤ) - 1 : ℤ) : ℚ) := by
    have : (z : ℤ) ≤ (p.z : ℤ) - 1 := by omega
    exact_mod_cast this
  have hy1 : (y : ℚ) ≤ (((p.y : ℤ) - 1 : ℤ) : ℚ) := by
    have : (y : ℤ) ≤ (p.y : ℤ) - 1 := by omega
    exact_mod_cast this
  have hx1 : (x : ℚ) ≤ (((p.x : ℤ) - 1 : ℤ) : ℚ) := by
    have : (x : ℤ) ≤ (p.x : ℤ) - 1 := by omega
    exact_mod_cast this
  exact ⟨lin8_lo (N 1 0) (N 1 1) (N 1 2) (N 1 3) _ _ _ _ _ _
      (Nat.cast_nonneg z) hz1 (Nat.cast_nonneg y) hy1 (Nat.cast_nonneg x) hx1,
    lin8_hi (N 1 0) (N 1 1) (N 1 2) (N 1 3) _ _ _ _ _ _
      (Nat.cast_nonneg z) hz1 (Nat.cast_nonneg y) hy1 (Nat.cast_nonneg x) hx1⟩

theorem coord_between_corners_x (N : Mat4) (p : V3 ℕ) (z y x : ℕ)
    (hz : z < p.z) (hy : y < p.y) (hx : x < p.x) :
    min8 (fun a b c => (mapCoord N false (destCorner p a b c)).x)
      ≤ (srcCoord N false z y x).x ∧
    (srcCoord N false z y x).x
      ≤ max8 (fun a b c => (mapCoord N false (destCorner p a b c)).x) := by
  have hz1 : (z : ℚ) ≤ (((p.z : ℤ) - 1 : ℤ) : ℚ) := by
    have : (z : ℤ) ≤ (p.z : ℤ) - 1 := by omega
    exact_mod_cast this
  have hy1 : (y : ℚ) ≤ (((p.y : ℤ) - 1 : ℤ) : ℚ) := by
    have : (y : ℤ) ≤ (p.y : ℤ) - 1 := by omega
    exact_mod_cast this
  have hx1 : (x : ℚ) ≤ (((p.x : ℤ) - 1 : ℤ) : ℚ) := by
    have : (x : ℤ) ≤ (p.x : ℤ) - 1 := by omega
    exact_mod_cast this
  exact ⟨lin8_lo (N 2 0) (N 2 1) (N 2 2) (N 2 3) _ _ _ _ _ _
      (Nat.cast_nonneg z) hz1 (Nat.cast_nonneg y) hy1 (Nat.cast_nonneg x) hx1,
    lin8_hi (N 2 0) (N 2 1) (N 2 2) (N 2 3) _ _ _ _ _ _
      (Nat.cast_nonneg z) hz1 (Nat.cast_nonneg y) hy1 (Nat.cast_nonneg x) hx1⟩

theorem cast_min8 (g : Bool → Bool → Bool → ℤ) :
    ((min8 g : ℤ) : ℚ) = min8 fun a b c => ((g a b c : ℤ) : ℚ) := by
  simp [min8, Int.cast_min]

theorem cast_max8 (g : Bool → Bool → Bool → ℤ) :
    ((max8 g : ℤ) : ℚ) = max8 fun a b c => ((g a b c : ℤ) : ℚ) := by
  simp [max8, Int.cast_max]

theorem max8_add_one (f : Bool → Bool → Bool → ℚ) :
    max8 (fun a b c => f a b c + 1) = max8 f + 1 := by
  simp [max8, max_add_add_right]

theorem resampler_axis_bounds (q : ℚ) (m : ℤ) (h0 : 0 ≤ q)
    (h1 : q + 1 ≤ (m : ℚ)) :
    0 ≤ trunc32 q ∧ trunc32 q + 1 < m + 1 ∧ 0 ≤ npRound q ∧ npRound q < m + 1 := by
  have hfl0 : 0 ≤ ⌊q⌋ := Int.floor_nonneg.mpr h0
  have hflm : ⌊q⌋ + 1 ≤ m := by
    have hle : ⌊q⌋ ≤ ⌊(m : ℚ) - 1⌋ := Int.floor_le_floor (by linarith)
    have heq : ⌊(m : ℚ) - 1⌋ = m - 1 := by
      rw [show ((m : ℚ) - 1) = ((m - 1 : ℤ) : ℚ) by push_cast; ring, Int.floor_intCast]
    omega
  have htr : trunc32 q = ⌊q⌋ := if_pos h0
  have hround : 0 ≤ npRound q ∧ npRound q < m + 1 := by
    unfold npRound
    split
    · split <;> omega
    · have hlo2 : 0 ≤ ⌊q + 1/2⌋ := Int.floor_nonneg.mpr (by linarith)
      have hhi2 : ⌊q + 1/2⌋ ≤ m := by
        have : ⌊q + 1/2⌋ ≤ ⌊(m : ℚ)⌋ := Int.floor_le_floor (by linarith)
        simpa [Int.floor_intCast] using this
      omega
  exact ⟨htr ▸ hfl0, htr ▸ (by omega), hround.1, hround.2⟩

theorem corner_axis_lo_z (N : Mat4) (p : V3 ℕ) (z y x : ℕ)
    (hz : z < p.z) (hy : y < p.y) (hx : x < p.x) :
    (((cornerLo N false p).z : ℤ) : ℚ) ≤ (srcCoord N false z y x).z := by
  calc (((cornerLo N false p).z : ℤ) : ℚ)
      = min8 fun a b c =>
          ((⌊(mapCoord N false (destCorner p a b c)).z⌋ : ℤ) : ℚ) :=
        cast_min8 fun a b c => ⌊(mapCoord N false (destCorner p a b c)).z⌋
    _ ≤ min8 fun a b c => (mapCoord N false (destCorner p a b c)).z :=
        min8_mono fun a b c => Int.floor_le _
    _ ≤ _ := (coord_between_corners_z N p z y x hz hy hx).1

theorem corner_axis_lo_y (N : Mat4) (p : V3 ℕ) (z y x : ℕ)
    (hz : z < p.z) (hy : y < p.y) (hx : x < p.x) :
    (((cornerLo N false p).y : ℤ) : ℚ) ≤ (srcCoord N false z y x).y := by
  calc (((cornerLo N false p).y : ℤ) : ℚ)
      = min8 fun a b c =>
          ((⌊(mapCoord N false (destCorner p a b c)).y⌋ : ℤ) : ℚ) :=
        cast_min8 fun a b c => ⌊(mapCoord N false (destCorner p a b c)).y⌋
    _ ≤ min8 fun a b c => (mapCoord N false (destCorner p a b c)).y :=
        min8_mono fun a b c => Int.floor_le _
    _ ≤ _ := (coord_between_corners_y N p z y x hz hy hx).1

theorem corner_axis_lo_x (N : Mat4) (p : V3 ℕ) (z y x : ℕ)
    (hz : z < p.z) (hy : y < p.y) (hx : x < p.x) :
    (((cornerLo N false p).x : ℤ) : ℚ) ≤ (srcCoord N false z y x).x := by
  calc (((cornerLo N false p).x : ℤ) : ℚ)
      = min8 fun a b c =>
          ((⌊(mapCoord N false (destCorner p a b c)).x⌋ : ℤ) : ℚ) :=
        cast_min8 fun a b c => ⌊(mapCoord N false (destCorner p a b c)).x⌋
    _ ≤ min8 fun a b c => (mapCoord N false (destCorner p a b c)).x :=
        min8_mono fun a b c => Int.floor_le _
    _ ≤ _ := (coord_between_corners_x N p z y x hz hy hx).1

theorem corner_axis_hi_z (N : Mat4) (p : V3 ℕ) (z y x : ℕ)
    (hz : z < p.z) (hy : y < p.y) (hx : x < p.x) :
    (srcCoord N false z y x).z + 1 ≤ (((cornerHi N false p).z : ℤ) : ℚ) := by
  calc (srcCoord N false z y x).z + 1
      ≤ max8 (fun a b c => (mapCoord N false (destCorner p a b c)).z) + 1 := by
        have := (coord_between_corners_z N p z y x hz hy hx).2; linarith
    _ = max8 fun a b c => (mapCoord N false (destCorner p a b c)).z + 1 :=
        (max8_add_one _).symm
    _ ≤ max8 fun a b c =>
          ((⌈(mapCoord N false (destCorner p a b c)).z + 1⌉ : ℤ) : ℚ) :=
        max8_mono fun a b c => Int.le_ceil _
    _ = (((cornerHi N false p).z : ℤ) : ℚ) :=
        (cast_max8 fun a b c => ⌈(mapCoord N false (destCorner p a b c)).z + 1⌉).symm

theorem corner_axis_hi_y (N : Mat4) (p : V3 ℕ) (z y x : ℕ)
    (hz : z < p.z) (hy : y < p.y) (hx : x < p.x) :
    (srcCoord N false z y x).y + 1 ≤ (((cornerHi N false p).y : ℤ) : ℚ) := by
  calc (srcCoord N false z y x).y + 1
      ≤ max8 (fun a b c => (mapCoord N false (destCorner p a b c)).y) + 1 := by
        have := (coord_between_corners_y N p z y x hz hy hx).2; linarith
    _ = max8 fun a b c => (mapCoord N false (destCorner p a b c)).y + 1 :=
        (max8_add_one _).symm
    _ ≤ max8 fun a b c =>
          ((⌈(mapCoord N false (destCorner p a b c)).y + 1⌉ : ℤ) : ℚ) :=
        max8_mono fun a b c => Int.le_ceil _
    _ = (((cornerHi N false p).y : ℤ) : ℚ) :=
        (cast_max8 fun a b c => ⌈(mapCoord N false (destCorner p a b c)).y + 1⌉).symm

theorem corner_axis_hi_x (N : Mat4) (p : V3 ℕ) (z y x : ℕ)
    (hz : z < p.z) (hy : y < p.y) (hx : x < p.x) :
    (srcCoord N false z y x).x + 1 ≤ (((cornerHi N false p).x : ℤ) : ℚ) := by
  calc (srcCoord N false z y x).x + 1
      ≤ max8 (fun a b c => (mapCoord N false (destCorner p a b c)).x) + 1 := by
        have := (coord_between_corners_x N p z y x hz hy hx).2; linarith
    _ = max8 fun a b c => (mapCoord N false (destCorner p a b c)).x + 1 :=
        (max8_add_one _).symm
    _ ≤ max8 fun a b c =>
          ((⌈(mapCoord N false (destCorner p a b c)).x + 1⌉ : ℤ) : ℚ) :=
        max8_mono fun a b c => Int.le_ceil _
    _ = (((cornerHi N false p).x : ℤ) : ℚ) :=
        (cast_max8 fun a b c => ⌈(mapCoord N false (destCorner p a b c)).x + 1⌉).symm

set_option linter.unusedVariables false in
/-- **C10**: in `warp_slice` with a purely affine forward matrix `M`
(bottom row `(0, 0, 0, 1)`), the perspective-divide branch is skipped,
and whenever the corner-derived bounds check passes (no component of
`lo = cornerLo` negative, every component of `hi = cornerHi` below the
spatial shape), every voxel index used by the resamplers at every
destination voxel — the `trunc32` / `trunc32 + 1` pairs of
`map_coordinates_linear` and the `npRound` index of
`map_coordinates_nearest`, applied to the offset-corrected dense
coordinate `srcCoord - lo` — lies inside `[0, hi + 1 - lo)`, the extent
of the sub-cube fetched by `slice_h5 inp_src lo (hi + 1)`; no resampler
access falls outside the fetched array. -/
theorem C10_resampler_in_bounds (M : Mat4) (p : V3 ℕ) (d h w : ℕ)
    (haff : M 3 0 = 0 ∧ M 3 1 = 0 ∧ M 3 2 = 0 ∧ M 3 3 = 1)
    (hgate : ¬((cornerLo (inv4 M) false p).z < 0 ∨ (cornerLo (inv4 M) false p).y < 0
      ∨ (cornerLo (inv4 M) false p).x < 0
      ∨ (d : ℤ) ≤ (cornerHi (inv4 M) false p).z
      ∨ (h : ℤ) ≤ (cornerHi (inv4 M) false p).y
      ∨ (w : ℤ) ≤ (cornerHi (inv4 M) false p).x)) :
    decide (M 3 0 ≠ 0 ∨ M 3 1 ≠ 0 ∨ M 3 2 ≠ 0) = false ∧
    ∀ z y x : ℕ, z < p.z → y < p.y → x < p.x →
      resamplerInCube (srcCoord (inv4 M) false z y x)
        (cornerLo (inv4 M) false p) (cornerHi (inv4 M) false p) := by
  obtain ⟨h0, h1, h2, _⟩ := haff
  refine ⟨by rw [h0, h1, h2]; decide, ?_⟩
  intro z y x hz hy hx
  obtain ⟨a1, a2, a3, a4⟩ := resampler_axis_bounds
    ((srcCoord (inv4 M) false z y x).z - ((cornerLo (inv4 M) false p).z : ℚ))
    ((cornerHi (inv4 M) false p).z - (cornerLo (inv4 M) false p).z)
    (sub_nonneg.2 (corner_axis_lo_z (inv4 M) p z y x hz hy hx))
    (by push_cast
        have := corner_axis_hi_z (inv4 M) p z y x hz hy hx
        linarith)
  obtain ⟨b1, b2, b3, b4⟩ := resampler_axis_bounds
    ((srcCoord (inv4 M) false z y x).y - ((cornerLo (inv4 M) false p).y : ℚ))
    ((cornerHi (inv4 M) false p).y - (cornerLo (inv4 M) false p).y)
    (sub_nonneg.2 (corner_axis_lo_y (inv4 M) p z y x hz hy hx))
    (by push_cast
        have := corner_axis_hi_y (inv4 M) p z y x hz hy hx
        linarith)
  obtain ⟨c1, c2, c3, c4⟩ := resampler_axis_bounds
    ((srcCoord (inv4 M) false z y x).x - ((cornerLo (inv4 M) false p).x : ℚ))
    ((cornerHi (inv4 M) false p).x - (cornerLo (inv4 M) false p).x)
    (sub_nonneg.2 (corner_axis_lo_x (inv4 M) p z y x hz hy hx))
    (by push_cast
        have := corner_axis_hi_x (inv4 M) p z y x hz hy hx
        linarith)
  exact ⟨⟨a1, by omega, a3, by omega⟩, ⟨b1, by omega, b3, by omega⟩,
    ⟨c1, by omega, c3, by omega⟩⟩

theorem mulVec4_identity (v : V4 ℚ) : mulVec4 identity v = v := by
  cases v
  simp [mulVec4, identity]

theorem mapCoord_identity (c : V4 ℚ) : mapCoord identity false c = ⟨c.z, c.y, c.x⟩ := by
  simp [mapCoord, mulVec4_identity]

theorem srcCoord_identity (z y x : ℕ) :
    srcCoord identity false z y x = ⟨(z : ℚ), (y : ℚ), (x : ℚ)⟩ := by
  simp [srcCoord, mapCoord_identity]

theorem trunc32_natCast (n : ℕ) : trunc32 (n : ℚ) = (n : ℤ) := by
  rw [trunc32, if_pos (Nat.cast_nonneg n)]
  exact_mod_cast Int.floor_natCast n

theorem cornerLo_identity (p : V3 ℕ) (hz : 0 < p.z) (hy : 0 < p.y) (hx : 0 < p.x) :
    cornerLo identity false p = ⟨0, 0, 0⟩ := by
  simp [cornerLo, min8, mapCoord_identity, destCorner]
  omega

theorem cornerHi_identity (p : V3 ℕ) (hz : 0 < p.z) (hy : 0 < p.y) (hx : 0 < p.x) :
    cornerHi identity false p = ⟨(p.z : ℤ), (p.y : ℤ), (p.x : ℤ)⟩ := by
  simp [cornerHi, max8, mapCoord_identity, destCorner, Int.ceil_add_one]
  omega

theorem inv4_identity : inv4 identity = identity := by
  funext i j
  fin_cases i <;> fin_cases j <;> decide

theorem map_coordinates_linear_int (src : ℤ → ℤ → ℤ → ℚ) (z y x : ℕ) :
    map_coordinates_linear src ⟨(z : ℚ), (y : ℚ), (x : ℚ)⟩ ⟨0, 0, 0⟩
      = src (z : ℤ) (y : ℤ) (x : ℤ) := by
  unfold map_coordinates_linear
  dsimp only
  rw [sub_zero, sub_zero, sub_zero, trunc32_natCast, trunc32_natCast, trunc32_natCast]
  push_cast
  ring

theorem slice_h5_4d_eq {s : Src} {c d h w : ℕ} (hs : s.shape = [c, d, h, w])
    (lo hiEx : V3 ℤ) :
    slice_h5 s lo hiEx = .ok (fun k u v t =>
      if k < c ∧ 0 ≤ u ∧ u < hiEx.z - lo.z ∧ 0 ≤ v ∧ v < hiEx.y - lo.y
          ∧ 0 ≤ t ∧ t < hiEx.x - lo.x then
        s.data k (lo.z + u) (lo.y + v) (lo.x + t)
      else 0) := by
  unfold slice_h5
  rw [hs]

/-- **C1** (amended): for a 4-d input source, `warp_slice` with
`M = identity()` and a patch shape that is positive and strictly smaller
than the spatial shape on every axis succeeds with a single in-place
input read from offset `0` of extent `patch + 1`, and every output voxel
of the patch equals the corresponding source voxel; the original claim
fails at a patch equal to the full spatial shape, where the corner check
`hi >= sh` fires and `WarpingOOBError` is raised instead. -/
theorem C1_amended (s : Src) (c d h w : ℕ) (hs : s.shape = [c, d, h, w])
    (p : V3 ℕ) (hpz : 0 < p.z) (hpy : 0 < p.y) (hpx : 0 < p.x)
    (hdz : p.z < d) (hdy : p.y < h) (hdx : p.x < w) :
    (warp_slice s p identity).reads
      = [⟨false, ⟨0, 0, 0⟩, ⟨(p.z : ℤ) + 1, (p.y : ℤ) + 1, (p.x : ℤ) + 1⟩⟩] ∧
    ∃ f, (warp_slice s p identity).out = .ok (f, none) ∧
      ∀ k z y x : ℕ, k < c → z < p.z → y < p.y → x < p.x →
        f k z y x = s.data k z y x := by
  have hdet : ¬det4 identity = 0 := by decide
  have hpersp : (decide (identity 3 0 ≠ 0 ∨ identity 3 1 ≠ 0 ∨ identity 3 2 ≠ 0))
      = false := by decide
  unfold warp_slice
  rw [hs]
  dsimp only
  rw [if_neg hdet, inv4_identity, hpersp,
    cornerLo_identity p hpz hpy hpx, cornerHi_identity p hpz hpy hpx]
  dsimp only
  rw [if_neg (by omega : ¬((0 : ℤ) < 0 ∨ (0 : ℤ) < 0 ∨ (0 : ℤ) < 0
    ∨ (d : ℤ) ≤ (p.z : ℤ) ∨ (h : ℤ) ≤ (p.y : ℤ) ∨ (w : ℤ) ≤ (p.x : ℤ)))]
  rw [slice_h5_4d_eq hs ⟨0, 0, 0⟩ ⟨(p.z : ℤ) + 1, (p.y : ℤ) + 1, (p.x : ℤ) + 1⟩]
  dsimp only
  refine ⟨rfl, _, rfl, ?_⟩
  intro k z y x hk hz hy hx
  rw [if_pos ⟨hk, hz, hy, hx⟩, srcCoord_identity]
  simp only [Int.cast_zero]
  rw [map_coordinates_linear_int]
  rw [if_pos ⟨hk, by omega, by omega, by omega, by omega, by omega, by omega⟩]
  simp only [zero_add]

theorem C1_amended_witness :
    (srcCube.shape = [1, 4, 4, 4] ∧ 0 < (2 : ℕ) ∧ (2 : ℕ) < 4) ∧
    ((warp_slice srcCube ⟨2, 2, 2⟩ identity).reads
      = [⟨false, ⟨0, 0, 0⟩, ⟨(2 : ℤ) + 1, (2 : ℤ) + 1, (2 : ℤ) + 1⟩⟩] ∧
    ∃ f, (warp_slice srcCube ⟨2, 2, 2⟩ identity).out = .ok (f, none) ∧
      ∀ k z y x : ℕ, k < 1 → z < 2 → y < 2 → x < 2 →
        f k z y x = srcCube.data k z y x) :=
  ⟨⟨by decide, by decide, by decide⟩,
   C1_amended srcCube 1 4 4 4 (by decide) ⟨2, 2, 2⟩ (by decide) (by decide)
     (by decide) (by decide) (by decide) (by decide)⟩

theorem C10_resampler_in_bounds_witness :
    ((identity 3 0 = 0 ∧ identity 3 1 = 0 ∧ identity 3 2 = 0 ∧ identity 3 3 = 1) ∧
     ¬((cornerLo (inv4 identity) false ⟨2, 2, 2⟩).z < 0
       ∨ (cornerLo (inv4 identity) false ⟨2, 2, 2⟩).y < 0
       ∨ (cornerLo (inv4 identity) false ⟨2, 2, 2⟩).x < 0
       ∨ (4 : ℤ) ≤ (cornerHi (inv4 identity) false ⟨2, 2, 2⟩).z
       ∨ (4 : ℤ) ≤ (cornerHi (inv4 identity) false ⟨2, 2, 2⟩).y
       ∨ (4 : ℤ) ≤ (cornerHi (inv4 identity) false ⟨2, 2, 2⟩).x)) ∧
    (decide (identity 3 0 ≠ 0 ∨ identity 3 1 ≠ 0 ∨ identity 3 2 ≠ 0) = false ∧
     ∀ z y x : ℕ, z < 2 → y < 2 → x < 2 →
       resamplerInCube (srcCoord (inv4 identity) false z y x)
         (cornerLo (inv4 identity) false ⟨2, 2, 2⟩)
         (cornerHi (inv4 identity) false ⟨2, 2, 2⟩)) :=
  ⟨⟨by decide, by decide⟩,
   C10_resampler_in_bounds identity ⟨2, 2, 2⟩ 4 4 4 (by decide) (by decide)⟩

end E3
